import Mathlib

/-!
Shallow embedding of the m3u8 playlist writer (src/writer.go) and proofs of
the specification claims about it.

Modelling conventions:
* Go `float64` durations and time offsets are modelled as rationals (ℚ);
  `math.Ceil` becomes `Int.ceil`.
* Go's `container/list` of segments is a Lean `List` (front = head).
* A Go method that mutates its receiver and returns an `error` becomes a
  function `State → State × Option String`; `none` is a nil error.
* Go maps (`p.Custom`, `daterange.X`) are modelled as association lists whose
  list order stands for the (unspecified) iteration order Go happens to use;
  two lists that are permutations of each other represent the same map.
* `time.Time` values are modelled by their rendered `DATETIME` string
  (`Option String`, `none` for the zero time, which Go checks via `IsZero`).
-/

namespace M3U8

/-- Encryption key record; fields as used by src/writer.go (declared in
structure.go outside src/). -/
structure Key where
  Method : String
  URI : String
  IV : String
  Keyformat : String
  Keyformatversions : String
deriving DecidableEq

/-- Modelled from the spec: `Key.Equal` is declared outside src/ (structure.go).
"Two keys are equal iff all five fields match; equality (not identity) drives
dedup." -/
def Key.Equal (a b : Key) : Bool :=
  a.Method == b.Method && a.URI == b.URI && a.IV == b.IV &&
    a.Keyformat == b.Keyformat && a.Keyformatversions == b.Keyformatversions

/-- Initialization-segment record (EXT-X-MAP); fields as used by
src/writer.go. -/
structure Map where
  URI : String
  Limit : Int
  Offset : Int
deriving DecidableEq

/-- Modelled from the spec: `Map.Equal` is declared outside src/ (structure.go).
"Map (initialization segment): URI, optional byte length + offset; equality by
value drives dedup." -/
def Map.Equal (a b : Map) : Bool :=
  a.URI == b.URI && a.Limit == b.Limit && a.Offset == b.Offset

/-- The two SCTE-35 textual conventions (constants declared outside src/,
used by src/writer.go). -/
inductive SCTESyntax where
  | SCTE35_67_2014
  | SCTE35_OATCLS
deriving DecidableEq

/-- Cue types for the OATCLS convention. -/
inductive SCTECueType where
  | SCTE35Cue_Start
  | SCTE35Cue_Mid
  | SCTE35Cue_End
deriving DecidableEq

/-- Ad-insertion cue record. -/
structure SCTE where
  Syntax : SCTESyntax
  CueType : SCTECueType
  Cue : String
  ID : String
  Time : ℚ
  Elapsed : ℚ
deriving DecidableEq

/-- EXT-X-DATERANGE record. `StartDate`/`EndDate` are modelled by their
rendered DATETIME strings; `X` is the caller-defined attribute map, listed in
the iteration order Go happens to use. -/
structure Daterange where
  ID : String
  Class : Option String
  StartDate : String
  EndDate : Option String
  Duration : Option ℚ
  PlannedDuration : Option ℚ
  X : List (String × String)
  SCTE35Command : Option String
  SCTE35In : Option String
  SCTE35Out : Option String
  EndOnNext : Bool
deriving DecidableEq

/-- Custom tag collaborator: the capability pair (TagName, Encode).
`Encode = none` models a nil buffer. -/
structure CustomTag where
  TagName : String
  Encode : Option String
deriving DecidableEq

/-- Widevine DRM metadata block. -/
structure WV where
  AudioChannels : ℕ
  AudioFormat : ℕ
  AudioProfileIDC : ℕ
  AudioSampleSize : ℕ
  AudioSamplingFrequency : ℕ
  CypherVersion : String
  ECM : String
  VideoFormat : ℕ
  VideoFrameRate : ℕ
  VideoLevelIDC : ℕ
  VideoProfileIDC : ℕ
  VideoResolution : String
  VideoSAR : String
deriving DecidableEq

/-- One media segment. -/
structure MediaSegment where
  URI : String
  Duration : ℚ
  Title : String
  SeqId : ℕ
  Key : Option Key
  Map : Option Map
  Limit : Int
  Offset : Int
  ProgramDateTime : Option String
  Discontinuity : Bool
  SCTE : Option SCTE
  Dateranges : List Daterange
  Custom : List CustomTag
deriving DecidableEq

/-- Media playlist state. `Custom` is the playlist-level custom-tag map in
Go iteration order. -/
structure MediaPlaylist where
  TargetDuration : ℚ
  SeqNo : ℕ
  Segments : List MediaSegment
  Args : String
  Iframe : Bool
  Closed : Bool
  MediaType : ℕ
  DiscontinuitySeq : ℕ
  StartTime : ℚ
  StartTimePrecise : Bool
  durationAsInt : Bool
  winsize : ℕ
  Custom : List CustomTag
  WV : Option WV
  ver : ℕ
deriving DecidableEq

/-- Alternative rendition. The source field `Type` is spelled `AltType`
(`Type` is reserved in Lean). -/
structure Alternative where
  AltType : String
  GroupId : String
  Name : String
  Language : String
  Default : Bool
  Autoselect : String
  Forced : String
  InstreamID : String
  Characteristics : String
  Channels : String
  Subtitles : String
  URI : String
deriving DecidableEq

/-- Variant record with its VariantParams embedded (as in Go). -/
structure Variant where
  URI : String
  Chunklist : Option MediaPlaylist
  ProgramId : ℕ
  Bandwidth : ℕ
  AverageBandwidth : ℕ
  Codecs : String
  Resolution : String
  Audio : String
  Video : String
  Captions : String
  Subtitles : String
  Name : String
  Iframe : Bool
  FrameRate : ℚ
  VideoRange : String
  HDCPLevel : String
  Alternatives : List Alternative
deriving DecidableEq

/-- Master playlist state. -/
structure MasterPlaylist where
  Variants : List Variant
  Args : String
  Custom : List CustomTag
  independentSegments : Bool
  ver : ℕ
deriving DecidableEq

/-- Reserved full-playlist error (declared in src/writer.go, never returned
by any function in src/). -/
def ErrPlaylistFull : String := "playlist is full"

/-- Modelled from the spec: `minver`, the default version of a newly created
playlist, is a constant declared outside src/ (structure.go); the spec calls
it "the lowest version supporting the baseline tag set". Its exact value does
not matter for any claim below (only that it is at most 5). -/
def minver : ℕ := 3

/-- Set version of the playlist accordingly with section 7: the version is
raised to `newver` when it is lower, never lowered (src/writer.go `version`). -/
def version (ver newver : ℕ) : ℕ :=
  if ver < newver then newver else ver

/-- Decimal rendering of a version number (src/writer.go `strver`). -/
def strver (ver : ℕ) : String := toString ver

/-- Playlist type constant EVENT (declared outside src/, value used by the
`switch` in src/writer.go). -/
def EVENT : ℕ := 1

/-- Playlist type constant VOD. -/
def VOD : ℕ := 2

/-- `NewMasterPlaylist`: empty master playlist at the default version. -/
def NewMasterPlaylist : MasterPlaylist :=
  { Variants := [], Args := "", Custom := [], independentSegments := false,
    ver := minver }

/-- `NewMediaPlaylist(winsize)`: empty media playlist at the default version;
every other field is Go zero-valued. -/
def NewMediaPlaylist (winsize : ℕ) : MediaPlaylist :=
  { TargetDuration := 0, SeqNo := 0, Segments := [], Args := "",
    Iframe := false, Closed := false, MediaType := 0, DiscontinuitySeq := 0,
    StartTime := 0, StartTimePrecise := false, durationAsInt := false,
    winsize := winsize, Custom := [], WV := none, ver := minver }

/-- Apply `f` to the last element of a list (Go `p.last()`, the target of all
per-segment setters). -/
def updateLast (f : MediaSegment → MediaSegment) : List MediaSegment → List MediaSegment
  | [] => []
  | [s] => [f s]
  | s :: rest => s :: updateLast f rest

/-- The sequence id `AppendSegment` assigns next: `p.SeqNo` on an empty
playlist, otherwise the last segment's id plus one (src/writer.go 363-367). -/
def nextId (p : MediaPlaylist) : ℕ :=
  match p.Segments.getLast? with
  | some s => s.SeqId + 1
  | none => p.SeqNo

/-- `MediaPlaylist.Remove` (src/writer.go 340-349): fail on an empty playlist,
otherwise drop the head segment and bump `SeqNo` unless the playlist is
closed. -/
def MediaPlaylist.Remove (p : MediaPlaylist) : MediaPlaylist × Option String :=
  if p.Segments.isEmpty then (p, some "playlist is empty")
  else
    ({ p with Segments := p.Segments.tail,
              SeqNo := if p.Closed then p.SeqNo else p.SeqNo + 1 }, none)

/-- `MediaPlaylist.AppendSegment` (src/writer.go 363-374). -/
def MediaPlaylist.AppendSegment (p : MediaPlaylist) (seg : MediaSegment) :
    MediaPlaylist × Option String :=
  let seg2 := { seg with SeqId := nextId p }
  let td := if p.TargetDuration < seg.Duration
            then ((⌈seg.Duration⌉ : ℤ) : ℚ) else p.TargetDuration
  ({ p with Segments := p.Segments ++ [seg2], TargetDuration := td }, none)

/-- A fresh segment as built by `MediaPlaylist.Append`; everything but the
three arguments is Go zero-valued. -/
def newSegment (uri : String) (duration : ℚ) (title : String) : MediaSegment :=
  { URI := uri, Duration := duration, Title := title, SeqId := 0,
    Key := none, Map := none, Limit := 0, Offset := 0,
    ProgramDateTime := none, Discontinuity := false, SCTE := none,
    Dateranges := [], Custom := [] }

/-- `MediaPlaylist.Append` (src/writer.go 353-359). -/
def MediaPlaylist.Append (p : MediaPlaylist) (uri : String) (duration : ℚ)
    (title : String) : MediaPlaylist × Option String :=
  p.AppendSegment (newSegment uri duration title)

/-- The conditional `Remove` performed at the start of `Slide`
(src/writer.go 380-382); its error is discarded by the source. -/
def slidePre (p : MediaPlaylist) : MediaPlaylist :=
  if p.Closed = false ∧ p.winsize ≤ p.Segments.length then (p.Remove).1 else p

/-- `MediaPlaylist.Slide` (src/writer.go 379-384); note it returns nothing:
the errors of the inner `Remove` and `Append` are discarded. -/
def MediaPlaylist.Slide (p : MediaPlaylist) (uri : String) (duration : ℚ)
    (title : String) : MediaPlaylist :=
  ((slidePre p).Append uri duration title).1

/-- `MediaPlaylist.Close` (src/writer.go 730-732). -/
def MediaPlaylist.Close (p : MediaPlaylist) : MediaPlaylist :=
  { p with Closed := true }

/-- `MediaPlaylist.Count` (src/writer.go 725-727). -/
def MediaPlaylist.Count (p : MediaPlaylist) : ℕ := p.Segments.length

/-- `MediaPlaylist.DurationAsInt` (src/writer.go 716-722). -/
def MediaPlaylist.DurationAsInt (p : MediaPlaylist) (yes : Bool) : MediaPlaylist :=
  { p with ver := if yes then version p.ver 3 else p.ver, durationAsInt := yes }

/-- `MediaPlaylist.SetIframeOnly` (src/writer.go 736-739). -/
def MediaPlaylist.SetIframeOnly (p : MediaPlaylist) : MediaPlaylist :=
  { p with ver := version p.ver 4, Iframe := true }

/-- `MediaPlaylist.SetKey` (src/writer.go 742-756): raises the version to 5
when a key-format or key-format-versions attribute is present. -/
def MediaPlaylist.SetKey (p : MediaPlaylist)
    (method uri iv keyformat keyformatversions : String) :
    MediaPlaylist × Option String :=
  if p.Segments.isEmpty then (p, some "playlist is empty")
  else
    let segs := updateLast
      (fun s => { s with Key := some ⟨method, uri, iv, keyformat, keyformatversions⟩ })
      p.Segments
    let v := if keyformat ≠ "" ∨ keyformatversions ≠ "" then version p.ver 5 else p.ver
    ({ p with ver := v, Segments := segs }, none)

/-- `MediaPlaylist.SetMap` (src/writer.go 759-766): raises the version to 5. -/
def MediaPlaylist.SetMap (p : MediaPlaylist) (uri : String) (limit offset : Int) :
    MediaPlaylist × Option String :=
  if p.Segments.isEmpty then (p, some "playlist is empty")
  else
    let segs := updateLast (fun s => { s with Map := some ⟨uri, limit, offset⟩ }) p.Segments
    ({ p with ver := version p.ver 5, Segments := segs }, none)

/-- `MediaPlaylist.SetRange` (src/writer.go 769-777): raises the version to 4. -/
def MediaPlaylist.SetRange (p : MediaPlaylist) (limit offset : Int) :
    MediaPlaylist × Option String :=
  if p.Segments.isEmpty then (p, some "playlist is empty")
  else
    let segs := updateLast (fun s => { s with Limit := limit, Offset := offset }) p.Segments
    ({ p with ver := version p.ver 4, Segments := segs }, none)

/-- `MediaPlaylist.SetSCTE35` (src/writer.go 787-793). -/
def MediaPlaylist.SetSCTE35 (p : MediaPlaylist) (scte35 : SCTE) :
    MediaPlaylist × Option String :=
  if p.Segments.isEmpty then (p, some "playlist is empty")
  else
    let segs := updateLast (fun s => { s with SCTE := some scte35 }) p.Segments
    ({ p with Segments := segs }, none)

/-- `MediaPlaylist.SetDateranges` (src/writer.go 796-802). -/
def MediaPlaylist.SetDateranges (p : MediaPlaylist) (dateranges : List Daterange) :
    MediaPlaylist × Option String :=
  if p.Segments.isEmpty then (p, some "playlist is empty")
  else
    let segs := updateLast (fun s => { s with Dateranges := dateranges }) p.Segments
    ({ p with Segments := segs }, none)

/-- `MediaPlaylist.SetDiscontinuity` (src/writer.go 808-814). -/
def MediaPlaylist.SetDiscontinuity (p : MediaPlaylist) : MediaPlaylist × Option String :=
  if p.Segments.isEmpty then (p, some "playlist is empty")
  else
    let segs := updateLast (fun s => { s with Discontinuity := true }) p.Segments
    ({ p with Segments := segs }, none)

/-- `MediaPlaylist.SetProgramDateTime` (src/writer.go 821-827); the time value
is modelled by its rendered string. -/
def MediaPlaylist.SetProgramDateTime (p : MediaPlaylist) (value : String) :
    MediaPlaylist × Option String :=
  if p.Segments.isEmpty then (p, some "playlist is empty")
  else
    let segs := updateLast (fun s => { s with ProgramDateTime := some value }) p.Segments
    ({ p with Segments := segs }, none)

/-- Go map insert keyed by `TagName` (last write wins); the position of the
inserted entry in the iteration-order list is one admissible choice. -/
def insertTag (tags : List CustomTag) (tag : CustomTag) : List CustomTag :=
  (tags.filter (fun t => t.TagName ≠ tag.TagName)) ++ [tag]

/-- `MediaPlaylist.SetCustomTag` (src/writer.go 830-836). -/
def MediaPlaylist.SetCustomTag (p : MediaPlaylist) (tag : CustomTag) : MediaPlaylist :=
  { p with Custom := insertTag p.Custom tag }

/-- `MediaPlaylist.SetCustomSegmentTag` (src/writer.go 839-853). -/
def MediaPlaylist.SetCustomSegmentTag (p : MediaPlaylist) (tag : CustomTag) :
    MediaPlaylist × Option String :=
  if p.Segments.isEmpty then (p, some "playlist is empty")
  else
    let segs := updateLast (fun s => { s with Custom := insertTag s.Custom tag }) p.Segments
    ({ p with Segments := segs }, none)

/-- `MediaPlaylist.SetVersion` (src/writer.go 862-864). -/
def MediaPlaylist.SetVersion (p : MediaPlaylist) (ver : ℕ) : MediaPlaylist :=
  { p with ver := ver }

/-- `MediaPlaylist.SetWinSize` (src/writer.go 872-874). -/
def MediaPlaylist.SetWinSize (p : MediaPlaylist) (winsize : ℕ) : MediaPlaylist :=
  { p with winsize := winsize }

/-- `MasterPlaylist.Append` (src/writer.go 50-66): raises the version to 4
when the new variant carries alternatives. -/
def MasterPlaylist.Append (p : MasterPlaylist) (uri : String)
    (chunklist : Option MediaPlaylist) (params : Variant) : MasterPlaylist :=
  let v := { params with URI := uri, Chunklist := chunklist }
  let v2 := if v.Alternatives ≠ [] then version p.ver 4 else p.ver
  { p with Variants := p.Variants ++ [v], ver := v2 }

/-- `MasterPlaylist.SetCustomTag` (src/writer.go 288-294). -/
def MasterPlaylist.SetCustomTag (p : MasterPlaylist) (tag : CustomTag) : MasterPlaylist :=
  { p with Custom := insertTag p.Custom tag }

/-- `MasterPlaylist.SetVersion` (src/writer.go 303-305). -/
def MasterPlaylist.SetVersion (p : MasterPlaylist) (ver : ℕ) : MasterPlaylist :=
  { p with ver := ver }

/-- `MasterPlaylist.SetIndependentSegments` (src/writer.go 315-317). -/
def MasterPlaylist.SetIndependentSegments (p : MasterPlaylist) (b : Bool) : MasterPlaylist :=
  { p with independentSegments := b }

/-! ### Text rendering helpers -/

/-- Ten to the n. -/
def pow10 (n : ℕ) : ℕ := 10 ^ n

/-- Left-pad with zeros to width n. -/
def padZeros (s : String) (n : ℕ) : String :=
  if n ≤ s.length then s else String.mk (List.replicate (n - s.length) '0') ++ s

/-- Render scaled / 10^prec as a fixed-point decimal string. -/
def renderScaled (scaled : ℤ) (prec : ℕ) : String :=
  let sign := if scaled < 0 then "-" else ""
  let n := scaled.natAbs
  if prec = 0 then sign ++ toString n
  else sign ++ toString (n / pow10 prec) ++ "." ++ padZeros (toString (n % pow10 prec)) prec

/-- Fixed-precision decimal rendering of a rational, rounding to nearest;
models strconv.FormatFloat(x, f, prec, …) on the decimal-valued inputs that
occur here (the Go call renders the nearest binary float). -/
def fmtFixed (q : ℚ) (prec : ℕ) : String :=
  renderScaled ⌊q * (pow10 prec : ℚ) + 1 / 2⌋ prec

/-- Smallest number of decimal digits rendering the rational exactly
(capped at 18). -/
def decPrec (q : ℚ) : ℕ :=
  ((List.range 19).find? (fun p => (q * (pow10 p : ℚ)).den == 1)).getD 18

/-- Shortest decimal rendering of a rational; models
strconv.FormatFloat(x, f, -1, 64) on decimal-valued inputs. -/
def fmtShortest (q : ℚ) : String :=
  renderScaled ⌊q * (pow10 (decPrec q) : ℚ)⌋ (decPrec q)

/-- Emission of registered custom tags (src/writer.go 81-88 and 394-402);
a nil buffer emits nothing. -/
def renderCustomTags (tags : List CustomTag) : String :=
  String.join (tags.map (fun t =>
    match t.Encode with
    | some s => s ++ "\n"
    | none => ""))

/-- Widevine block (src/writer.go 437-503); tag spellings, including the
missing space after WV-VIDEO-LEVEL-IDC, follow the source. -/
def renderWV (w : WV) : String :=
  (if w.AudioChannels ≠ 0 then "#WV-AUDIO-CHANNELS " ++ toString w.AudioChannels ++ "\n" else "") ++
  (if w.AudioFormat ≠ 0 then "#WV-AUDIO-FORMAT " ++ toString w.AudioFormat ++ "\n" else "") ++
  (if w.AudioProfileIDC ≠ 0 then "#WV-AUDIO-PROFILE-IDC " ++ toString w.AudioProfileIDC ++ "\n" else "") ++
  (if w.AudioSampleSize ≠ 0 then "#WV-AUDIO-SAMPLE-SIZE " ++ toString w.AudioSampleSize ++ "\n" else "") ++
  (if w.AudioSamplingFrequency ≠ 0 then "#WV-AUDIO-SAMPLING-FREQUENCY " ++ toString w.AudioSamplingFrequency ++ "\n" else "") ++
  (if w.CypherVersion ≠ "" then "#WV-CYPHER-VERSION " ++ w.CypherVersion ++ "\n" else "") ++
  (if w.ECM ≠ "" then "#WV-ECM " ++ w.ECM ++ "\n" else "") ++
  (if w.VideoFormat ≠ 0 then "#WV-VIDEO-FORMAT " ++ toString w.VideoFormat ++ "\n" else "") ++
  (if w.VideoFrameRate ≠ 0 then "#WV-VIDEO-FRAME-RATE " ++ toString w.VideoFrameRate ++ "\n" else "") ++
  (if w.VideoLevelIDC ≠ 0 then "#WV-VIDEO-LEVEL-IDC" ++ toString w.VideoLevelIDC ++ "\n" else "") ++
  (if w.VideoProfileIDC ≠ 0 then "#WV-VIDEO-PROFILE-IDC " ++ toString w.VideoProfileIDC ++ "\n" else "") ++
  (if w.VideoResolution ≠ "" then "#WV-VIDEO-RESOLUTION " ++ w.VideoResolution ++ "\n" else "") ++
  (if w.VideoSAR ≠ "" then "#WV-VIDEO-SAR " ++ w.VideoSAR ++ "\n" else "")

/-- SCTE cue rendering (src/writer.go 514-554). -/
def renderSCTE (s : SCTE) : String :=
  match s.Syntax with
  | SCTESyntax.SCTE35_67_2014 =>
    "#EXT-SCTE35:CUE=\"" ++ s.Cue ++ "\"" ++
    (if s.ID ≠ "" then ",ID=\"" ++ s.ID ++ "\"" else "") ++
    (if s.Time ≠ 0 then ",TIME=" ++ fmtShortest s.Time else "") ++ "\n"
  | SCTESyntax.SCTE35_OATCLS =>
    match s.CueType with
    | SCTECueType.SCTE35Cue_Start =>
      "#EXT-OATCLS-SCTE35:" ++ s.Cue ++ "\n#EXT-X-CUE-OUT:" ++ fmtShortest s.Time ++ "\n"
    | SCTECueType.SCTE35Cue_Mid =>
      "#EXT-X-CUE-OUT-CONT:ElapsedTime=" ++ fmtShortest s.Elapsed ++
        ",Duration=" ++ fmtShortest s.Time ++ ",SCTE35=" ++ s.Cue ++ "\n"
    | SCTECueType.SCTE35Cue_End => "#EXT-X-CUE-IN\n"

/-- EXT-X-DATERANGE rendering (src/writer.go 555-607); the X attributes are
walked in the modelled map iteration order. -/
def renderDaterange (d : Daterange) : String :=
  "#EXT-X-DATERANGE:ID=\"" ++ d.ID ++ "\"" ++
  (match d.Class with | some c => ",CLASS=\"" ++ c ++ "\"" | none => "") ++
  ",START-DATE=\"" ++ d.StartDate ++ "\"" ++
  (match d.EndDate with | some e => ",END-DATE=\"" ++ e ++ "\"" | none => "") ++
  (match d.Duration with | some q => ",DURATION=" ++ fmtShortest q | none => "") ++
  (match d.PlannedDuration with | some q => ",PLANNED-DURATION=" ++ fmtShortest q | none => "") ++
  String.join (d.X.map (fun kv => ",X-" ++ kv.1 ++ "=\"" ++ kv.2 ++ "\"")) ++
  (match d.SCTE35Command with | some c => ",SCTE35-CMD=\"" ++ c ++ "\"" | none => "") ++
  (match d.SCTE35In with | some c => ",SCTE35-IN=\"" ++ c ++ "\"" | none => "") ++
  (match d.SCTE35Out with | some c => ",SCTE35-OUT=\"" ++ c ++ "\"" | none => "") ++
  (if d.EndOnNext then ",END-ON-NEXT=YES" else "") ++ "\n"

/-- EXT-X-KEY attribute text (src/writer.go 610-632). -/
def renderKey (k : Key) : String :=
  "#EXT-X-KEY:METHOD=" ++ k.Method ++
  (if k.Method ≠ "NONE" then
    ",URI=\"" ++ k.URI ++ "\"" ++
    (if k.IV ≠ "" then ",IV=" ++ k.IV else "") ++
    (if k.Keyformat ≠ "" then ",KEYFORMAT=\"" ++ k.Keyformat ++ "\"" else "") ++
    (if k.Keyformatversions ≠ "" then ",KEYFORMATVERSIONS=\"" ++ k.Keyformatversions ++ "\"" else "")
   else "") ++ "\n"

/-- The EXT-X-KEY text emitted for a segment given the loop-carried previous
key (src/writer.go 609: emit only when the segment has a key that is new or
differs by value from the previous one). -/
def keyTagStr (lastKey : Option Key) (k? : Option Key) : String :=
  match k? with
  | none => ""
  | some k =>
    match lastKey with
    | none => renderKey k
    | some k0 => if k.Equal k0 then "" else renderKey k

/-- EXT-X-MAP rendering (src/writer.go 640-653). -/
def renderMap (m : Map) : String :=
  "#EXT-X-MAP:URI=\"" ++ m.URI ++ "\"" ++
  (if 0 < m.Limit then ",BYTERANGE=" ++ toString m.Limit ++ "@" ++ toString m.Offset else "") ++
  "\n"

/-- The EXT-X-MAP text emitted for a segment given the loop-carried previous
map (src/writer.go 640). -/
def mapTagStr (lastMap : Option Map) (m? : Option Map) : String :=
  match m? with
  | none => ""
  | some m =>
    match lastMap with
    | none => renderMap m
    | some m0 => if m.Equal m0 then "" else renderMap m

/-- EXTINF duration rendering (src/writer.go 683-689). -/
def durStr (p : MediaPlaylist) (d : ℚ) : String :=
  if p.durationAsInt then toString (⌈d⌉ : ℤ) else fmtFixed d 3

/-- Lookup in the per-call duration cache. -/
def lookupCache (c : List (ℚ × String)) (d : ℚ) : Option String :=
  (c.find? (fun x => x.1 == d)).map (fun x => x.2)

/-- Memoized duration formatting (src/writer.go 679-691): cache hit returns
the stored string, miss formats and stores. -/
def extinfStr (p : MediaPlaylist) (c : List (ℚ × String)) (d : ℚ) :
    String × List (ℚ × String) :=
  match lookupCache c d with
  | some s => (s, c)
  | none => (durStr p d, c ++ [(d, durStr p d)])

/-- All text emitted for one segment by the Encode loop (src/writer.go
512-701), given the loop-carried previous Key/Map and the duration cache. -/
def encodeSegBlock (p : MediaPlaylist) (lastKey : Option Key) (lastMap : Option Map)
    (c : List (ℚ × String)) (seg : MediaSegment) : String × List (ℚ × String) :=
  let scte := match seg.SCTE with | some s => renderSCTE s | none => ""
  let drs := String.join (seg.Dateranges.map renderDaterange)
  let disc := if seg.Discontinuity then "#EXT-X-DISCONTINUITY\n" else ""
  let pdt := match seg.ProgramDateTime with
    | some t => "#EXT-X-PROGRAM-DATE-TIME:" ++ t ++ "\n"
    | none => ""
  let br := if 0 < seg.Limit
    then "#EXT-X-BYTERANGE:" ++ toString seg.Limit ++ "@" ++ toString seg.Offset ++ "\n"
    else ""
  let ds := extinfStr p c seg.Duration
  let inf := "#EXTINF:" ++ ds.1 ++ "," ++ seg.Title ++ "\n" ++
    seg.URI ++ (if p.Args ≠ "" then "?" ++ p.Args else "") ++ "\n"
  (scte ++ drs ++ keyTagStr lastKey seg.Key ++ disc ++ mapTagStr lastMap seg.Map ++
     pdt ++ br ++ renderCustomTags seg.Custom ++ inf, ds.2)

/-- Cache-free form of `encodeSegBlock`; the cache always stores exactly what
`durStr` computes, so the two agree (lemma `segBlocks_eq_segBlocksNC`). -/
def encodeSegBlockNC (p : MediaPlaylist) (lastKey : Option Key) (lastMap : Option Map)
    (seg : MediaSegment) : String :=
  let scte := match seg.SCTE with | some s => renderSCTE s | none => ""
  let drs := String.join (seg.Dateranges.map renderDaterange)
  let disc := if seg.Discontinuity then "#EXT-X-DISCONTINUITY\n" else ""
  let pdt := match seg.ProgramDateTime with
    | some t => "#EXT-X-PROGRAM-DATE-TIME:" ++ t ++ "\n"
    | none => ""
  let br := if 0 < seg.Limit
    then "#EXT-X-BYTERANGE:" ++ toString seg.Limit ++ "@" ++ toString seg.Offset ++ "\n"
    else ""
  let inf := "#EXTINF:" ++ durStr p seg.Duration ++ "," ++ seg.Title ++ "\n" ++
    seg.URI ++ (if p.Args ≠ "" then "?" ++ p.Args else "") ++ "\n"
  scte ++ drs ++ keyTagStr lastKey seg.Key ++ disc ++ mapTagStr lastMap seg.Map ++
    pdt ++ br ++ renderCustomTags seg.Custom ++ inf

/-- The segment loop of MediaPlaylist.Encode: one block of text per segment,
threading lastKey, lastMap (both set to the current segment `Key`/`Map`
after each iteration, src/writer.go 634 and 654) and the duration cache. -/
def segBlocks (p : MediaPlaylist) :
    Option Key → Option Map → List (ℚ × String) → List MediaSegment → List String
  | _, _, _, [] => []
  | lk, lm, c, seg :: rest =>
    let b := encodeSegBlock p lk lm c seg
    b.1 :: segBlocks p seg.Key seg.Map b.2 rest

/-- Cache-free segment loop. -/
def segBlocksNC (p : MediaPlaylist) :
    Option Key → Option Map → List MediaSegment → List String
  | _, _, [] => []
  | lk, lm, seg :: rest =>
    encodeSegBlockNC p lk lm seg :: segBlocksNC p seg.Key seg.Map rest

/-- Header part of MediaPlaylist.Encode (src/writer.go 390-503). -/
def mediaHeader (p : MediaPlaylist) : String :=
  "#EXTM3U\n#EXT-X-VERSION:" ++ strver p.ver ++ "\n" ++
  renderCustomTags p.Custom ++
  (if 0 < p.MediaType then
    "#EXT-X-PLAYLIST-TYPE:" ++
      (if p.MediaType = EVENT then "EVENT\n#EXT-X-ALLOW-CACHE:NO\n"
       else if p.MediaType = VOD then "VOD\n" else "")
   else "") ++
  "#EXT-X-MEDIA-SEQUENCE:" ++ toString p.SeqNo ++ "\n" ++
  "#EXT-X-TARGETDURATION:" ++ toString (⌈p.TargetDuration⌉ : ℤ) ++ "\n" ++
  (if 0 < p.StartTime then
    "#EXT-X-START:TIME-OFFSET=" ++ fmtShortest p.StartTime ++
      (if p.StartTimePrecise then ",PRECISE=YES" else "") ++ "\n"
   else "") ++
  (if p.DiscontinuitySeq ≠ 0 then
    "#EXT-X-DISCONTINUITY-SEQUENCE:" ++ toString p.DiscontinuitySeq ++ "\n" else "") ++
  (if p.Iframe then "#EXT-X-I-FRAMES-ONLY\n" else "") ++
  (match p.WV with | some w => renderWV w | none => "")

/-- `MediaPlaylist.Encode` (src/writer.go 387-706). -/
def MediaPlaylist.Encode (p : MediaPlaylist) : String :=
  mediaHeader p ++ String.join (segBlocks p none none [] p.Segments) ++
  (if p.Closed then "#EXT-X-ENDLIST\n" else "")

/-- The dedup key fmt.Sprintf builds for an alternative rendition
(src/writer.go 96): the four fields joined with hyphens. -/
def altKey (alt : Alternative) : String :=
  alt.AltType ++ "-" ++ alt.GroupId ++ "-" ++ alt.Name ++ "-" ++ alt.Language

/-- EXT-X-MEDIA rendering (src/writer.go 102-161). -/
def renderAlt (alt : Alternative) : String :=
  "#EXT-X-MEDIA:" ++
  (if alt.AltType ≠ "" then "TYPE=" ++ alt.AltType else "") ++
  (if alt.GroupId ≠ "" then ",GROUP-ID=\"" ++ alt.GroupId ++ "\"" else "") ++
  (if alt.Name ≠ "" then ",NAME=\"" ++ alt.Name ++ "\"" else "") ++
  ",DEFAULT=" ++ (if alt.Default then "YES" else "NO") ++
  (if alt.Autoselect ≠ "" then ",AUTOSELECT=" ++ alt.Autoselect else "") ++
  (if alt.Language ≠ "" then ",LANGUAGE=\"" ++ alt.Language ++ "\"" else "") ++
  (if alt.Forced ≠ "" then ",FORCED=" ++ alt.Forced else "") ++
  (if alt.AltType = "CLOSED-CAPTIONS" ∧ alt.InstreamID ≠ ""
   then ",INSTREAM-ID=\"" ++ alt.InstreamID ++ "\"" else "") ++
  (if alt.Characteristics ≠ "" then ",CHARACTERISTICS=\"" ++ alt.Characteristics ++ "\"" else "") ++
  (if alt.Channels ≠ "" then ",CHANNELS=\"" ++ alt.Channels ++ "\"" else "") ++
  (if alt.Subtitles ≠ "" then ",SUBTITLES=\"" ++ alt.Subtitles ++ "\"" else "") ++
  (if alt.URI ≠ "" then ",URI=\"" ++ alt.URI ++ "\"" else "") ++ "\n"

/-- The alternative-emission pass for one variant (src/writer.go 93-163):
skip keys already in altsWritten, otherwise record the key and emit; returns
the alternatives actually emitted and the grown set. -/
def altsStep : List String → List Alternative → List Alternative × List String
  | seen, [] => ([], seen)
  | seen, alt :: rest =>
    if altKey alt ∈ seen then altsStep seen rest
    else
      let r := altsStep (altKey alt :: seen) rest
      (alt :: r.1, r.2)

/-- EXT-X-I-FRAME-STREAM-INF rendering (src/writer.go 164-204). -/
def iframeStreamInfTag (p : MasterPlaylist) (pl : Variant) : String :=
  "#EXT-X-I-FRAME-STREAM-INF:BANDWIDTH=" ++ toString pl.Bandwidth ++
  (if p.ver < 6 then ",PROGRAM-ID=" ++ toString pl.ProgramId else "") ++
  (if pl.AverageBandwidth ≠ 0 then ",AVERAGE-BANDWIDTH=" ++ toString pl.AverageBandwidth else "") ++
  (if pl.Codecs ≠ "" then ",CODECS=\"" ++ pl.Codecs ++ "\"" else "") ++
  (if pl.Resolution ≠ "" then ",RESOLUTION=" ++ pl.Resolution else "") ++
  (if pl.Video ≠ "" then ",VIDEO=\"" ++ pl.Video ++ "\"" else "") ++
  (if pl.VideoRange ≠ "" then ",VIDEO-RANGE=" ++ pl.VideoRange else "") ++
  (if pl.HDCPLevel ≠ "" then ",HDCP-LEVEL=" ++ pl.HDCPLevel else "") ++
  (if pl.URI ≠ "" then ",URI=\"" ++ pl.URI ++ "\"" else "") ++ "\n"

/-- EXT-X-STREAM-INF plus URI line rendering (src/writer.go 205-281);
the master query string joins with an ampersand when the URI already holds a
question mark, else with a question mark. -/
def streamInfTag (p : MasterPlaylist) (pl : Variant) : String :=
  "#EXT-X-STREAM-INF:BANDWIDTH=" ++ toString pl.Bandwidth ++
  (if p.ver < 6 then ",PROGRAM-ID=" ++ toString pl.ProgramId else "") ++
  (if pl.AverageBandwidth ≠ 0 then ",AVERAGE-BANDWIDTH=" ++ toString pl.AverageBandwidth else "") ++
  (if pl.Codecs ≠ "" then ",CODECS=\"" ++ pl.Codecs ++ "\"" else "") ++
  (if pl.Resolution ≠ "" then ",RESOLUTION=" ++ pl.Resolution else "") ++
  (if pl.Audio ≠ "" then ",AUDIO=\"" ++ pl.Audio ++ "\"" else "") ++
  (if pl.Video ≠ "" then ",VIDEO=\"" ++ pl.Video ++ "\"" else "") ++
  (if pl.Captions ≠ "" then
    ",CLOSED-CAPTIONS=" ++
      (if pl.Captions = "NONE" then pl.Captions else "\"" ++ pl.Captions ++ "\"")
   else "") ++
  (if pl.Subtitles ≠ "" then ",SUBTITLES=\"" ++ pl.Subtitles ++ "\"" else "") ++
  (if pl.Name ≠ "" then ",NAME=\"" ++ pl.Name ++ "\"" else "") ++
  (if pl.FrameRate ≠ 0 then ",FRAME-RATE=" ++ fmtFixed pl.FrameRate 3 else "") ++
  (if pl.VideoRange ≠ "" then ",VIDEO-RANGE=" ++ pl.VideoRange else "") ++
  (if pl.HDCPLevel ≠ "" then ",HDCP-LEVEL=" ++ pl.HDCPLevel else "") ++
  "\n" ++ pl.URI ++
  (if p.Args ≠ "" then (if pl.URI.contains '?' then "&" else "?") ++ p.Args else "") ++
  "\n"

/-- Variant loop of MasterPlaylist.Encode (src/writer.go 92-282): per variant,
the not-yet-written alternatives, then its stream tag. -/
def encodeVariantsLoop (p : MasterPlaylist) : List String → List Variant → String
  | _, [] => ""
  | seen, pl :: rest =>
    let r := altsStep seen pl.Alternatives
    String.join (r.1.map renderAlt) ++
      (if pl.Iframe then iframeStreamInfTag p pl else streamInfTag p pl) ++
      encodeVariantsLoop p r.2 rest

/-- Header part of MasterPlaylist.Encode (src/writer.go 72-88). -/
def masterHeader (p : MasterPlaylist) : String :=
  "#EXTM3U\n#EXT-X-VERSION:" ++ strver p.ver ++ "\n" ++
  (if p.independentSegments then "#EXT-X-INDEPENDENT-SEGMENTS\n" else "") ++
  renderCustomTags p.Custom

/-- `MasterPlaylist.Encode` (src/writer.go 69-285). -/
def MasterPlaylist.Encode (p : MasterPlaylist) : String :=
  masterHeader p ++ encodeVariantsLoop p [] p.Variants

/-- The alternatives `MasterPlaylist.Encode` renders, in output order
(the first components collected across `altsStep` calls). -/
def emitLoop : List String → List Variant → List Alternative
  | _, [] => []
  | seen, pl :: rest =>
    let r := altsStep seen pl.Alternatives
    r.1 ++ emitLoop r.2 rest

/-- Alternatives emitted by a whole master playlist encode. -/
def emittedAlts (p : MasterPlaylist) : List Alternative :=
  emitLoop [] p.Variants

/-! ### The sliding-window operation language (for lifetime claims C1, C2) -/

/-- The mutating operations of §4.2 as data. -/
inductive Op where
  | append (uri : String) (duration : ℚ) (title : String)
  | remove
  | slide (uri : String) (duration : ℚ) (title : String)
  | close
deriving DecidableEq

/-- One operation applied to a playlist; errors are discarded, as a Go caller
ignoring the returned error value would. -/
def applyOp (p : MediaPlaylist) : Op → MediaPlaylist
  | Op.append u d t => (p.Append u d t).1
  | Op.remove => (p.Remove).1
  | Op.slide u d t => p.Slide u d t
  | Op.close => p.Close

/-- Sequence ids assigned by one operation (src/writer.go 364-367); a slide
assigns through its inner append, after the conditional remove. -/
def opIds (p : MediaPlaylist) : Op → List ℕ
  | Op.append _ _ _ => [nextId p]
  | Op.slide _ _ _ => [nextId (slidePre p)]
  | _ => []

/-- Run a list of operations, collecting the assigned ids in order. -/
def runOps (p : MediaPlaylist) : List Op → MediaPlaylist × List ℕ
  | [] => (p, [])
  | op :: rest =>
    let r := runOps (applyOp p op) rest
    (r.1, opIds p op ++ r.2)

/-- Number of segments appended by a run (direct appends and slides). -/
def countAppends : List Op → ℕ
  | [] => 0
  | Op.append _ _ _ :: rest => countAppends rest + 1
  | Op.slide _ _ _ :: rest => countAppends rest + 1
  | _ :: rest => countAppends rest

/-- Durations of all appended segments, in append order. -/
def appendedDurations : List Op → List ℚ
  | [] => []
  | Op.append _ d _ :: rest => d :: appendedDurations rest
  | Op.slide _ d _ :: rest => d :: appendedDurations rest
  | _ :: rest => appendedDurations rest

/-- True when every remove that actually drops a segment runs while the
playlist is open (slides only ever remove while open, by their guard). -/
def removesOpenB (p : MediaPlaylist) : List Op → Bool
  | [] => true
  | Op.remove :: rest =>
    (p.Segments.isEmpty || !p.Closed) && removesOpenB (applyOp p Op.remove) rest
  | op :: rest => removesOpenB (applyOp p op) rest

/-! ### Elementary facts about the mutation operations -/

lemma Append_segments (p : MediaPlaylist) (u : String) (d : ℚ) (t : String) :
    ((p.Append u d t).1).Segments
      = p.Segments ++ [{ newSegment u d t with SeqId := nextId p }] := by
  simp [MediaPlaylist.Append, MediaPlaylist.AppendSegment]

lemma Append_segments_length (p : MediaPlaylist) (u : String) (d : ℚ) (t : String) :
    ((p.Append u d t).1).Segments.length = p.Segments.length + 1 := by
  simp [Append_segments]

lemma Remove_segments_length (p : MediaPlaylist) (h : p.Segments ≠ []) :
    ((p.Remove).1).Segments.length = p.Segments.length - 1 := by
  simp [MediaPlaylist.Remove, List.isEmpty_iff, h]

/-- Claim C4: remove() on an empty playlist fails with the empty-playlist
condition and leaves the playlist (in particular `SeqNo`) unchanged; on a
non-empty playlist it succeeds, drops the head segment, and increments
`SeqNo` exactly when the playlist is not closed. -/
theorem c4_remove (p : MediaPlaylist) :
    (p.Segments = [] → p.Remove = (p, some "playlist is empty")) ∧
    (p.Segments ≠ [] →
      (p.Remove).2 = none ∧
      (p.Remove).1.Segments = p.Segments.tail ∧
      (p.Remove).1.SeqNo = (if p.Closed then p.SeqNo else p.SeqNo + 1) ∧
      (p.Remove).1.TargetDuration = p.TargetDuration ∧
      (p.Remove).1.Closed = p.Closed) := by
  constructor
  · intro h
    simp [MediaPlaylist.Remove, h]
  · intro h
    simp [MediaPlaylist.Remove, List.isEmpty_iff, h]

def c4Empty : MediaPlaylist := NewMediaPlaylist 3

def c4One : MediaPlaylist := ((NewMediaPlaylist 3).Append "a.ts" 5 "").1

/-- Witness for C4 at concrete inputs: an empty playlist and a one-segment
playlist. -/
theorem c4_witness :
    (c4Empty.Segments = [] ∧ c4Empty.Remove = (c4Empty, some "playlist is empty")) ∧
    (c4One.Segments ≠ [] ∧
      (c4One.Remove).2 = none ∧
      (c4One.Remove).1.Segments = c4One.Segments.tail ∧
      (c4One.Remove).1.SeqNo = (if c4One.Closed then c4One.SeqNo else c4One.SeqNo + 1) ∧
      (c4One.Remove).1.TargetDuration = c4One.TargetDuration ∧
      (c4One.Remove).1.Closed = c4One.Closed) :=
  ⟨⟨rfl, (c4_remove c4Empty).1 rfl⟩,
   ⟨by decide, (c4_remove c4One).2 (by decide)⟩⟩

/-- Claim C3 (amended): on an open playlist with at least one segment and
count at or above the window size, slide() performs the remove and then the
append, leaving the segment count unchanged; on an open playlist with count
below the window size, slide() only appends, growing the count by one.
(The original claim fails for an open empty playlist with window size 0,
see `c3_counterexample`.) -/
theorem c3_slide_window (p : MediaPlaylist) (u : String) (d : ℚ) (t : String) :
    (p.Closed = false → p.Segments ≠ [] → p.winsize ≤ p.Segments.length →
      p.Slide u d t = ((p.Remove).1.Append u d t).1 ∧
      (p.Slide u d t).Segments.length = p.Segments.length) ∧
    (p.Closed = false → p.Segments.length < p.winsize →
      (p.Slide u d t).Segments.length = p.Segments.length + 1) := by
  constructor
  · intro hcl hne hw
    have hpre : slidePre p = (p.Remove).1 := by
      simp [slidePre, hcl, hw]
    constructor
    · simp [MediaPlaylist.Slide, hpre]
    · have hlen : 1 ≤ p.Segments.length := List.length_pos.2 hne
      simp [MediaPlaylist.Slide, hpre, Append_segments_length,
        Remove_segments_length p hne]
      omega
  · intro hcl hw
    have hpre : slidePre p = p := by
      simp [slidePre, hcl]
      omega
    simp [MediaPlaylist.Slide, hpre, Append_segments_length]

def c3Two : MediaPlaylist :=
  (((NewMediaPlaylist 2).Append "a.ts" 5 "").1.Append "b.ts" 6 "").1

/-- Witness for C3 at concrete inputs: a two-segment playlist at window size
2 (slide keeps the count) and below-window behaviour on a fresh playlist of
window size 2 with one segment. -/
theorem c3_witness :
    (c3Two.Closed = false ∧ c3Two.Segments ≠ [] ∧ c3Two.winsize ≤ c3Two.Segments.length ∧
      (c3Two.Slide "c.ts" 7 "").Segments.length = c3Two.Segments.length) ∧
    (c4One.Closed = false ∧ c4One.Segments.length < c4One.winsize ∧
      (c4One.Slide "c.ts" 7 "").Segments.length = c4One.Segments.length + 1) :=
  ⟨⟨by decide, by decide, by decide,
    ((c3_slide_window c3Two "c.ts" 7 "").1 (by decide) (by decide) (by decide)).2⟩,
   ⟨by decide, by decide,
    (c3_slide_window c4One "c.ts" 7 "").2 (by decide) (by decide)⟩⟩

/-- C3 counterexample: an open empty playlist with window size 0 is at or
above its window size, yet slide() grows the count from 0 to 1, because the
inner remove() fails (and its failure is discarded); the claim as stated is
false at this input. -/
theorem c3_counterexample :
    (NewMediaPlaylist 0).Closed = false ∧
    (NewMediaPlaylist 0).winsize ≤ (NewMediaPlaylist 0).Segments.length ∧
    ((NewMediaPlaylist 0).Slide "u.ts" 5 "").Segments.length
      ≠ (NewMediaPlaylist 0).Segments.length := by
  refine ⟨rfl, by decide, by decide⟩

/-- Claim C9 (amended): failures of remove() and of every per-segment setter
(SetKey, SetMap, SetRange, SetSCTE35, SetDateranges, SetDiscontinuity,
SetProgramDateTime, SetCustomSegmentTag) are returned to their immediate
caller with the playlist left in its prior state, and append() never fails;
slide(), however, returns nothing and discards the failure of its inner
remove() — the guard fires and that remove fails exactly when the playlist is
open and empty with window size 0, and in that state slide() silently behaves
as a bare append. -/
theorem c9_error_propagation (p : MediaPlaylist) (u t : String) (d : ℚ)
    (lim off : Int) (m iv kf kv pdt : String) (scte : SCTE)
    (drs : List Daterange) (tag : CustomTag) :
    ((p.Append u d t).2 = none) ∧
    (p.Segments = [] → p.Remove = (p, some "playlist is empty")) ∧
    (p.Segments = [] → p.SetRange lim off = (p, some "playlist is empty")) ∧
    (p.Segments = [] → p.SetDiscontinuity = (p, some "playlist is empty")) ∧
    (p.Segments = [] → p.SetKey m u iv kf kv = (p, some "playlist is empty")) ∧
    (p.Segments = [] → p.SetMap u lim off = (p, some "playlist is empty")) ∧
    (p.Segments = [] → p.SetSCTE35 scte = (p, some "playlist is empty")) ∧
    (p.Segments = [] → p.SetDateranges drs = (p, some "playlist is empty")) ∧
    (p.Segments = [] → p.SetProgramDateTime pdt = (p, some "playlist is empty")) ∧
    (p.Segments = [] → p.SetCustomSegmentTag tag = (p, some "playlist is empty")) ∧
    ((p.Closed = false ∧ p.winsize ≤ p.Segments.length ∧
        (p.Remove).2 = some "playlist is empty")
      ↔ (p.Closed = false ∧ p.Segments = [] ∧ p.winsize = 0)) ∧
    (p.Closed = false → p.Segments = [] → p.winsize = 0 →
      (p.Remove).2 = some "playlist is empty" ∧
      p.Slide u d t = (p.Append u d t).1) := by
  refine ⟨rfl, ?_, ?_, ?_, ?_, ?_, ?_, ?_, ?_, ?_, ?_, ?_⟩
  · intro h; simp [MediaPlaylist.Remove, h]
  · intro h; simp [MediaPlaylist.SetRange, h]
  · intro h; simp [MediaPlaylist.SetDiscontinuity, h]
  · intro h; simp [MediaPlaylist.SetKey, h]
  · intro h; simp [MediaPlaylist.SetMap, h]
  · intro h; simp [MediaPlaylist.SetSCTE35, h]
  · intro h; simp [MediaPlaylist.SetDateranges, h]
  · intro h; simp [MediaPlaylist.SetProgramDateTime, h]
  · intro h; simp [MediaPlaylist.SetCustomSegmentTag, h]
  · constructor
    · rintro ⟨hcl, hw, hr⟩
      by_cases he : p.Segments.isEmpty
      · have hseg : p.Segments = [] := List.isEmpty_iff.1 he
        refine ⟨hcl, hseg, ?_⟩
        rw [hseg] at hw
        simpa using hw
      · exfalso
        simp [MediaPlaylist.Remove, he] at hr
    · rintro ⟨hcl, hseg, hw⟩
      refine ⟨hcl, ?_, ?_⟩
      · rw [hseg, hw]
        exact Nat.zero_le _
      · simp [MediaPlaylist.Remove, hseg]
  · intro hcl he hw
    have hrem : p.Remove = (p, some "playlist is empty") := by
      simp [MediaPlaylist.Remove, he]
    refine ⟨by rw [hrem], ?_⟩
    have hpre : slidePre p = p := by
      simp [slidePre, hcl, hw, he, hrem]
    simp [MediaPlaylist.Slide, hpre]

def c9SCTE : SCTE :=
  { Syntax := SCTESyntax.SCTE35_OATCLS, CueType := SCTECueType.SCTE35Cue_End,
    Cue := "/cue", ID := "", Time := 0, Elapsed := 0 }

def c9Tag : CustomTag := ⟨"X-C9", some "#X-C9:1"⟩

/-- Witness for C9 at the one state where the inner remove of slide() fails:
open, empty, window size 0; every per-segment setter fails there with the
empty-playlist condition and leaves the playlist unchanged. -/
theorem c9_witness :
    ((NewMediaPlaylist 0).Append "u.ts" 5 "").2 = none ∧
    (NewMediaPlaylist 0).Remove = (NewMediaPlaylist 0, some "playlist is empty") ∧
    (NewMediaPlaylist 0).SetRange 100 0 = (NewMediaPlaylist 0, some "playlist is empty") ∧
    (NewMediaPlaylist 0).SetDiscontinuity = (NewMediaPlaylist 0, some "playlist is empty") ∧
    (NewMediaPlaylist 0).SetKey "AES-128" "u.ts" "iv" "identity" "1"
      = (NewMediaPlaylist 0, some "playlist is empty") ∧
    (NewMediaPlaylist 0).SetMap "u.ts" 100 0
      = (NewMediaPlaylist 0, some "playlist is empty") ∧
    (NewMediaPlaylist 0).SetSCTE35 c9SCTE
      = (NewMediaPlaylist 0, some "playlist is empty") ∧
    (NewMediaPlaylist 0).SetDateranges []
      = (NewMediaPlaylist 0, some "playlist is empty") ∧
    (NewMediaPlaylist 0).SetProgramDateTime "2026-01-01T00:00:00Z"
      = (NewMediaPlaylist 0, some "playlist is empty") ∧
    (NewMediaPlaylist 0).SetCustomSegmentTag c9Tag
      = (NewMediaPlaylist 0, some "playlist is empty") ∧
    ((NewMediaPlaylist 0).Closed = false ∧
      (NewMediaPlaylist 0).winsize ≤ (NewMediaPlaylist 0).Segments.length ∧
      ((NewMediaPlaylist 0).Remove).2 = some "playlist is empty") ∧
    ((NewMediaPlaylist 0).Remove).2 = some "playlist is empty" ∧
    (NewMediaPlaylist 0).Slide "u.ts" 5 "" = ((NewMediaPlaylist 0).Append "u.ts" 5 "").1 := by
  have h := c9_error_propagation (NewMediaPlaylist 0) "u.ts" "" 5 100 0
    "AES-128" "iv" "identity" "1" "2026-01-01T00:00:00Z" c9SCTE [] c9Tag
  exact ⟨h.1, h.2.1 rfl, h.2.2.1 rfl, h.2.2.2.1 rfl, h.2.2.2.2.1 rfl,
    h.2.2.2.2.2.1 rfl, h.2.2.2.2.2.2.1 rfl, h.2.2.2.2.2.2.2.1 rfl,
    h.2.2.2.2.2.2.2.2.1 rfl, h.2.2.2.2.2.2.2.2.2.1 rfl,
    h.2.2.2.2.2.2.2.2.2.2.1.mpr ⟨rfl, rfl, rfl⟩,
    h.2.2.2.2.2.2.2.2.2.2.2 rfl rfl rfl⟩

/-- C9 counterexample: at the concrete state (open, empty, window size 0) the
remove() performed inside slide() fails with the empty-playlist condition,
yet slide() — whose return type carries no error at all (src/writer.go 379) —
reports nothing and proceeds exactly like a bare append; the failure is
discarded rather than returned to the caller. -/
theorem c9_counterexample :
    ((NewMediaPlaylist 0).Remove).2 = some "playlist is empty" ∧
    (NewMediaPlaylist 0).winsize ≤ (NewMediaPlaylist 0).Segments.length ∧
    (NewMediaPlaylist 0).Closed = false ∧
    (NewMediaPlaylist 0).Slide "u.ts" 5 ""
      = ((NewMediaPlaylist 0).Append "u.ts" 5 "").1 := by
  exact ⟨rfl, by decide, rfl, rfl⟩

/-! ### The duration cache never alters output -/

/-- The per-call duration cache only ever stores what `durStr` computes. -/
def cacheSound (p : MediaPlaylist) (c : List (ℚ × String)) : Prop :=
  ∀ x ∈ c, x.2 = durStr p x.1

lemma cacheSound_nil (p : MediaPlaylist) : cacheSound p [] := by
  intro x hx
  cases hx

lemma extinfStr_sound (p : MediaPlaylist) (c : List (ℚ × String)) (d : ℚ)
    (h : cacheSound p c) :
    (extinfStr p c d).1 = durStr p d ∧ cacheSound p (extinfStr p c d).2 := by
  cases hlk : lookupCache c d with
  | none =>
    have he : extinfStr p c d = (durStr p d, c ++ [(d, durStr p d)]) := by
      unfold extinfStr
      rw [hlk]
    rw [he]
    refine ⟨rfl, ?_⟩
    intro x hx
    rcases List.mem_append.1 hx with hx1 | hx1
    · exact h x hx1
    · rw [List.mem_singleton.1 hx1]
  | some s =>
    have he : extinfStr p c d = (s, c) := by
      unfold extinfStr
      rw [hlk]
    have hs : s = durStr p d := by
      unfold lookupCache at hlk
      cases hf : c.find? (fun x => x.1 == d) with
      | none => rw [hf] at hlk; cases hlk
      | some x =>
        rw [hf] at hlk
        have hxs : x.2 = s := by simpa using hlk
        have hmem := List.mem_of_find?_eq_some hf
        have hd : x.1 = d := by simpa using List.find?_some hf
        rw [← hxs, h x hmem, hd]
    rw [he, hs]
    exact ⟨rfl, h⟩

lemma encodeSegBlock_sound (p : MediaPlaylist) (lk : Option Key) (lm : Option Map)
    (c : List (ℚ × String)) (seg : MediaSegment) (h : cacheSound p c) :
    (encodeSegBlock p lk lm c seg).1 = encodeSegBlockNC p lk lm seg ∧
    cacheSound p (encodeSegBlock p lk lm c seg).2 := by
  have h2 := extinfStr_sound p c seg.Duration h
  refine ⟨?_, ?_⟩
  · simp only [encodeSegBlock, encodeSegBlockNC]
    rw [h2.1]
  · simp only [encodeSegBlock]
    exact h2.2

lemma segBlocks_eq_segBlocksNC (p : MediaPlaylist) :
    ∀ (segs : List MediaSegment) (lk : Option Key) (lm : Option Map)
      (c : List (ℚ × String)), cacheSound p c →
      segBlocks p lk lm c segs = segBlocksNC p lk lm segs := by
  intro segs
  induction segs with
  | nil => intro lk lm c h; rfl
  | cons seg rest ih =>
    intro lk lm c h
    have hb := encodeSegBlock_sound p lk lm c seg h
    simp only [segBlocks, segBlocksNC]
    rw [hb.1, ih seg.Key seg.Map _ hb.2]

/-- `MediaPlaylist.Encode`, with the duration cache eliminated. -/
lemma Encode_eq_NC (p : MediaPlaylist) :
    p.Encode = mediaHeader p ++ String.join (segBlocksNC p none none p.Segments) ++
      (if p.Closed then "#EXT-X-ENDLIST\n" else "") := by
  unfold MediaPlaylist.Encode
  rw [segBlocks_eq_segBlocksNC p p.Segments none none [] (cacheSound_nil p)]

lemma segBlocksNC_length (p : MediaPlaylist) :
    ∀ (segs : List MediaSegment) (lk : Option Key) (lm : Option Map),
      (segBlocksNC p lk lm segs).length = segs.length := by
  intro segs
  induction segs with
  | nil => intro lk lm; rfl
  | cons seg rest ih =>
    intro lk lm
    simp only [segBlocksNC, List.length_cons]
    rw [ih seg.Key seg.Map]

/-! ### The window size is read only by slide -/

lemma durStr_winsize (p : MediaPlaylist) (w : ℕ) (d : ℚ) :
    durStr { p with winsize := w } d = durStr p d := rfl

lemma extinfStr_winsize (p : MediaPlaylist) (w : ℕ) (c : List (ℚ × String)) (d : ℚ) :
    extinfStr { p with winsize := w } c d = extinfStr p c d := rfl

lemma encodeSegBlockNC_winsize (p : MediaPlaylist) (w : ℕ) (lk : Option Key)
    (lm : Option Map) (seg : MediaSegment) :
    encodeSegBlockNC { p with winsize := w } lk lm seg = encodeSegBlockNC p lk lm seg := rfl

lemma segBlocksNC_winsize (p : MediaPlaylist) (w : ℕ) :
    ∀ (segs : List MediaSegment) (lk : Option Key) (lm : Option Map),
      segBlocksNC { p with winsize := w } lk lm segs = segBlocksNC p lk lm segs := by
  intro segs
  induction segs with
  | nil => intro lk lm; rfl
  | cons seg rest ih =>
    intro lk lm
    simp only [segBlocksNC]
    rw [encodeSegBlockNC_winsize, ih seg.Key seg.Map]

lemma mediaHeader_winsize (p : MediaPlaylist) (w : ℕ) :
    mediaHeader { p with winsize := w } = mediaHeader p := rfl

/-- Claim C10: the window size is consulted only by slide(): append always
succeeds (never the full-playlist error) and grows the retained list whatever
the current count, both append and encode are unchanged by any window-size
rewrite, and the encoder emits one block per retained segment — all of them,
regardless of the window size. -/
theorem c10_window_only_slide (p : MediaPlaylist) (u : String) (d : ℚ)
    (t : String) (w : ℕ) :
    (p.Append u d t).2 = none ∧
    ((p.Append u d t).1).Segments.length = p.Segments.length + 1 ∧
    MediaPlaylist.Encode { p with winsize := w } = p.Encode ∧
    (MediaPlaylist.Append { p with winsize := w } u d t).1
      = { (p.Append u d t).1 with winsize := w } ∧
    p.Encode = mediaHeader p ++ String.join (segBlocksNC p none none p.Segments) ++
      (if p.Closed then "#EXT-X-ENDLIST\n" else "") ∧
    (segBlocksNC p none none p.Segments).length = p.Segments.length := by
  refine ⟨rfl, Append_segments_length p u d t, ?_, rfl, Encode_eq_NC p, segBlocksNC_length p p.Segments none none⟩
  rw [Encode_eq_NC, Encode_eq_NC, mediaHeader_winsize, segBlocksNC_winsize]

/-! ### Version negotiation (claim C5) -/

lemma updateLast_length (f : MediaSegment → MediaSegment) :
    ∀ l : List MediaSegment, (updateLast f l).length = l.length := by
  intro l
  induction l with
  | nil => rfl
  | cons s rest ih =>
    cases rest with
    | nil => rfl
    | cons b l2 =>
      simp only [updateLast, List.length_cons]
      simpa using ih

/-- Three feature-introducing setters, with version floors 3, 4 and 5:
DurationAsInt(true), SetRange, and SetKey with a non-empty key-format. -/
inductive FeatureSetter where
  | durInt
  | range
  | keyfmt
deriving DecidableEq

/-- Apply one feature setter (with fixed benign arguments). -/
def applySetter (p : MediaPlaylist) : FeatureSetter → MediaPlaylist
  | FeatureSetter.durInt => p.DurationAsInt true
  | FeatureSetter.range => (p.SetRange 0 0).1
  | FeatureSetter.keyfmt => (p.SetKey "AES-128" "key.bin" "" "identity" "").1

/-- Interleave a sequence of feature setters. -/
def applySetters (p : MediaPlaylist) (l : List FeatureSetter) : MediaPlaylist :=
  l.foldl applySetter p

/-- The protocol version each setter requires. -/
def setterVer : FeatureSetter → ℕ
  | FeatureSetter.durInt => 3
  | FeatureSetter.range => 4
  | FeatureSetter.keyfmt => 5

lemma applySetter_segments (p : MediaPlaylist) (t : FeatureSetter) :
    (applySetter p t).Segments.length = p.Segments.length := by
  cases t with
  | durInt => rfl
  | range =>
    by_cases h : p.Segments.isEmpty <;>
      simp [applySetter, MediaPlaylist.SetRange, h, updateLast_length]
  | keyfmt =>
    by_cases h : p.Segments.isEmpty <;>
      simp [applySetter, MediaPlaylist.SetKey, h, updateLast_length]

lemma applySetter_ver (p : MediaPlaylist) (t : FeatureSetter) (h : p.Segments ≠ []) :
    (applySetter p t).ver = max p.ver (setterVer t) := by
  have hne : p.Segments.isEmpty = false := by
    simp [List.isEmpty_iff, h]
  cases t with
  | durInt =>
    simp [applySetter, MediaPlaylist.DurationAsInt, setterVer]
    unfold version
    split <;> omega
  | range =>
    simp [applySetter, MediaPlaylist.SetRange, hne, setterVer]
    unfold version
    split <;> omega
  | keyfmt =>
    simp [applySetter, MediaPlaylist.SetKey, hne, setterVer]
    unfold version
    split <;> omega

lemma applySetters_ver :
    ∀ (l : List FeatureSetter) (p : MediaPlaylist), p.Segments ≠ [] →
      (applySetters p l).ver = l.foldl (fun v t => max v (setterVer t)) p.ver := by
  intro l
  induction l with
  | nil => intro p h; rfl
  | cons t rest ih =>
    intro p h
    have h2 : (applySetter p t).Segments ≠ [] := by
      rw [← List.length_pos] at h ⊢
      rw [applySetter_segments]
      exact h
    show (applySetters (applySetter p t) rest).ver = _
    rw [ih (applySetter p t) h2, applySetter_ver p t h]
    rfl

lemma SetKey_ver (p : MediaPlaylist) (m u i kf kv : String) (h : p.Segments ≠ []) :
    ((p.SetKey m u i kf kv).1).ver
      = (if kf ≠ "" ∨ kv ≠ "" then version p.ver 5 else p.ver) := by
  have hne : p.Segments.isEmpty = false := by
    simp [List.isEmpty_iff, h]
  simp [MediaPlaylist.SetKey, hne]

lemma SetKey_segments (p : MediaPlaylist) (m u i kf kv : String) :
    ((p.SetKey m u i kf kv).1).Segments.length = p.Segments.length := by
  by_cases h : p.Segments.isEmpty <;>
    simp [MediaPlaylist.SetKey, h, updateLast_length]

/-- Claim C5: `version` computes the maximum of the current and the required
version, so it never lowers the current one; calling the feature-introducing
SetKey (non-empty key-format, floor 5) twice changes the version at most on
the first call; and interleaving the three setters whose floors are 3, 4 and
5 yields version 5 from any starting version at most 5, in every call
order. -/
theorem c5_version_negotiation (c r : ℕ) (p : MediaPlaylist) (kf : String)
    (hne : p.Segments ≠ []) (hkf : kf ≠ "") (hv : p.ver ≤ 5) :
    version c r = max c r ∧
    c ≤ version c r ∧
    ((p.SetKey "AES-128" "key.bin" "" kf "").1.SetKey "AES-128" "key.bin" "" kf "").1.ver
      = (p.SetKey "AES-128" "key.bin" "" kf "").1.ver ∧
    (∀ l : List FeatureSetter,
      l.Perm [FeatureSetter.durInt, FeatureSetter.range, FeatureSetter.keyfmt] →
      (applySetters p l).ver = 5) := by
  refine ⟨?_, ?_, ?_, ?_⟩
  · unfold version
    split <;> omega
  · unfold version
    split <;> omega
  · have h1 : ((p.SetKey "AES-128" "key.bin" "" kf "").1).Segments ≠ [] := by
      rw [← List.length_pos] at hne ⊢
      rw [SetKey_segments]
      exact hne
    rw [SetKey_ver _ _ _ _ _ _ h1, SetKey_ver _ _ _ _ _ _ hne,
      if_pos (Or.inl hkf), if_pos (Or.inl hkf)]
    unfold version
    split <;> (try split) <;> omega
  · intro l hperm
    rw [applySetters_ver l p hne]
    haveI : RightCommutative (fun (v : ℕ) (t : FeatureSetter) => max v (setterVer t)) :=
      ⟨fun b x y => by omega⟩
    rw [hperm.foldl_eq]
    simp only [List.foldl_cons, List.foldl_nil, setterVer]
    omega

/-- Witness for C5 at a concrete one-segment playlist at version 3, with
key-format "identity" and the interleaving keyfmt, range, durInt. -/
theorem c5_witness :
    version 3 7 = max 3 7 ∧
    3 ≤ version 3 7 ∧
    ((c4One.SetKey "AES-128" "key.bin" "" "identity" "").1.SetKey
        "AES-128" "key.bin" "" "identity" "").1.ver
      = (c4One.SetKey "AES-128" "key.bin" "" "identity" "").1.ver ∧
    (applySetters c4One
      [FeatureSetter.keyfmt, FeatureSetter.range, FeatureSetter.durInt]).ver = 5 := by
  have h := c5_version_negotiation 3 7 c4One "identity" (by decide) (by decide) (by decide)
  exact ⟨h.1, h.2.1, h.2.2.1, h.2.2.2 _ (by decide)⟩

/-! ### Target duration bookkeeping (claim C1) -/

lemma Append_targetDuration (p : MediaPlaylist) (u : String) (d : ℚ) (t : String) :
    ((p.Append u d t).1).TargetDuration
      = (if p.TargetDuration < d then ((⌈d⌉ : ℤ) : ℚ) else p.TargetDuration) := by
  simp [MediaPlaylist.Append, MediaPlaylist.AppendSegment, newSegment]

lemma Remove_targetDuration (p : MediaPlaylist) :
    ((p.Remove).1).TargetDuration = p.TargetDuration := by
  by_cases h : p.Segments.isEmpty <;> simp [MediaPlaylist.Remove, h]

lemma slidePre_targetDuration (p : MediaPlaylist) :
    (slidePre p).TargetDuration = p.TargetDuration := by
  unfold slidePre
  split
  · exact Remove_targetDuration p
  · rfl

/-- One update step of the target duration equals a max step over integer
ceilings, provided the running value is itself an integer. -/
lemma td_step (A : ℤ) (d : ℚ) :
    (if (A : ℚ) < d then ((⌈d⌉ : ℤ) : ℚ) else (A : ℚ)) = ((max A ⌈d⌉ : ℤ) : ℚ) := by
  by_cases h : (A : ℚ) < d
  · rw [if_pos h]
    have h2 : (A : ℚ) ≤ ((⌈d⌉ : ℤ) : ℚ) := le_trans h.le (Int.le_ceil d)
    have h1 : A ≤ ⌈d⌉ := by exact_mod_cast h2
    rw [max_eq_right h1]
  · rw [if_neg h]
    push_neg at h
    have h2 : ⌈d⌉ ≤ A := Int.ceil_le.mpr h
    rw [max_eq_left h2]

lemma runOps_targetDuration :
    ∀ (ops : List Op) (p : MediaPlaylist) (A : ℤ), p.TargetDuration = (A : ℚ) →
      ((runOps p ops).1).TargetDuration
        = ((((appendedDurations ops).map (fun d => (⌈d⌉ : ℤ))).foldl max A : ℤ) : ℚ) := by
  intro ops
  induction ops with
  | nil => intro p A h; exact h
  | cons op rest ih =>
    intro p A h
    cases op with
    | append u d t =>
      show ((runOps ((p.Append u d t).1) rest).1).TargetDuration = _
      apply ih
      rw [Append_targetDuration, h, td_step]
    | remove =>
      show ((runOps ((p.Remove).1) rest).1).TargetDuration = _
      apply ih
      rw [Remove_targetDuration, h]
    | slide u d t =>
      show ((runOps (p.Slide u d t) rest).1).TargetDuration = _
      apply ih
      show (((slidePre p).Append u d t).1).TargetDuration = _
      rw [Append_targetDuration, slidePre_targetDuration, h, td_step]
    | close =>
      show ((runOps p.Close rest).1).TargetDuration = _
      apply ih
      exact h

lemma applyOp_targetDuration_mono (p : MediaPlaylist) (op : Op) :
    p.TargetDuration ≤ (applyOp p op).TargetDuration := by
  cases op with
  | append u d t =>
    show p.TargetDuration ≤ ((p.Append u d t).1).TargetDuration
    rw [Append_targetDuration]
    by_cases h : p.TargetDuration < d
    · rw [if_pos h]
      exact le_trans h.le (Int.le_ceil d)
    · rw [if_neg h]
  | remove =>
    show p.TargetDuration ≤ ((p.Remove).1).TargetDuration
    rw [Remove_targetDuration]
  | slide u d t =>
    show p.TargetDuration ≤ (((slidePre p).Append u d t).1).TargetDuration
    rw [Append_targetDuration, slidePre_targetDuration]
    by_cases h : p.TargetDuration < d
    · rw [if_pos h]
      exact le_trans h.le (Int.le_ceil d)
    · rw [if_neg h]
  | close => exact le_refl _

/-- Claim C1 (amended): over any operation run from a fresh playlist, the
target duration equals the maximum of 0 and the integer ceilings of all
durations ever appended (a fold of max over ceilings started at 0) — when
some appended duration is nonnegative this is exactly the ceiling of the
largest duration ever appended — and no single operation, in particular no
remove, ever decreases it. (The original statement fails when every appended
duration is negative, see `c1_counterexample`.) -/
theorem c1_targetDuration (s0 w : ℕ) (ops : List Op) :
    ((runOps { NewMediaPlaylist w with SeqNo := s0 } ops).1).TargetDuration
      = ((((appendedDurations ops).map (fun d => (⌈d⌉ : ℤ))).foldl max 0 : ℤ) : ℚ) ∧
    ∀ (p : MediaPlaylist) (op : Op),
      p.TargetDuration ≤ (applyOp p op).TargetDuration := by
  constructor
  · apply runOps_targetDuration
    simp [NewMediaPlaylist]
  · exact applyOp_targetDuration_mono

/-- C1 counterexample: append a single segment of duration -1 (the layer does
not reject negative durations). The target duration stays 0, but the ceiling
of the largest — indeed the only — appended duration is -1; the claimed
equality is false at this input. -/
theorem c1_counterexample :
    appendedDurations [Op.append "u.ts" (-1 : ℚ) ""] = [(-1 : ℚ)] ∧
    ((runOps (NewMediaPlaylist 1) [Op.append "u.ts" (-1 : ℚ) ""]).1).TargetDuration = 0 ∧
    ((⌈(-1 : ℚ)⌉ : ℤ) : ℚ) ≠ 0 := by
  refine ⟨rfl, by decide, by decide⟩

/-! ### Sequence id bookkeeping (claim C2) -/

lemma Append_SeqNo (p : MediaPlaylist) (u : String) (d : ℚ) (t : String) :
    ((p.Append u d t).1).SeqNo = p.SeqNo := rfl

/-- The retained segments carry exactly the ids SeqNo, SeqNo+1, … in order. -/
def idInv (p : MediaPlaylist) : Prop :=
  p.Segments.map (fun s => s.SeqId) = List.range' p.SeqNo p.Segments.length

lemma getLast?_range' (s : ℕ) :
    ∀ n : ℕ, (List.range' s n).getLast? = if n = 0 then none else some (s + n - 1) := by
  intro n
  cases n with
  | zero => rfl
  | succ m =>
    rw [List.range'_1_concat, List.getLast?_concat]
    simp

lemma nextId_of_idInv (p : MediaPlaylist) (h : idInv p) :
    nextId p = p.SeqNo + p.Segments.length := by
  unfold nextId
  cases hl : p.Segments.getLast? with
  | none =>
    have he : p.Segments = [] := List.getLast?_eq_none_iff.1 hl
    simp [he]
  | some s =>
    have h1 : (p.Segments.map (fun x => x.SeqId)).getLast? = some s.SeqId := by
      rw [List.getLast?_map, hl]
      rfl
    rw [h, getLast?_range'] at h1
    have hne : p.Segments ≠ [] := by
      intro hc
      rw [hc] at hl
      cases hl
    have hlen : p.Segments.length ≠ 0 := by
      simpa [List.length_eq_zero] using hne
    rw [if_neg hlen] at h1
    have h2 := Option.some.inj h1
    show s.SeqId + 1 = p.SeqNo + p.Segments.length
    omega

lemma Append_idInv (p : MediaPlaylist) (u : String) (d : ℚ) (t : String)
    (h : idInv p) : idInv ((p.Append u d t).1) := by
  unfold idInv
  rw [Append_segments, Append_SeqNo]
  simp only [List.map_append, List.length_append, List.map_cons, List.map_nil,
    List.length_cons, List.length_nil]
  rw [h, nextId_of_idInv p h]
  rw [show p.Segments.length + (0 + 1) = p.Segments.length + 1 by omega]
  rw [List.range'_1_concat]

lemma Remove_idInv (p : MediaPlaylist) (h : idInv p)
    (hop : p.Segments ≠ [] → p.Closed = false) :
    idInv ((p.Remove).1) ∧
    ((p.Remove).1).SeqNo + ((p.Remove).1).Segments.length
      = p.SeqNo + p.Segments.length := by
  by_cases he : p.Segments.isEmpty
  · simp [MediaPlaylist.Remove, he]
    exact h
  · have hne : p.Segments ≠ [] := by
      simpa [List.isEmpty_iff] using he
    have hcl := hop hne
    cases hseg : p.Segments with
    | nil => exact absurd hseg hne
    | cons a l =>
      have h2 : a.SeqId :: l.map (fun s => s.SeqId)
          = List.range' p.SeqNo (l.length + 1) := by
        have := h
        unfold idInv at this
        rw [hseg] at this
        simpa using this
      rw [List.range'_succ] at h2
      have ha : a.SeqId = p.SeqNo := (List.cons.inj h2).1
      have hl2 : l.map (fun s => s.SeqId) = List.range' (p.SeqNo + 1) l.length :=
        (List.cons.inj h2).2
      constructor
      · unfold idInv
        simp [MediaPlaylist.Remove, he, hcl, hseg]
        exact hl2
      · simp [MediaPlaylist.Remove, he, hcl, hseg]
        omega

lemma slidePre_idInv (p : MediaPlaylist) (h : idInv p) :
    idInv (slidePre p) ∧
    (slidePre p).SeqNo + (slidePre p).Segments.length
      = p.SeqNo + p.Segments.length := by
  unfold slidePre
  split
  · next hcond => exact Remove_idInv p h (fun _ => hcond.1)
  · exact ⟨h, rfl⟩

lemma Close_idInv (p : MediaPlaylist) (h : idInv p) : idInv p.Close := h

lemma runOps_ids :
    ∀ (ops : List Op) (p : MediaPlaylist), idInv p → removesOpenB p ops = true →
      (runOps p ops).2
        = List.range' (p.SeqNo + p.Segments.length) (countAppends ops) := by
  intro ops
  induction ops with
  | nil => intro p h hb; rfl
  | cons op rest ih =>
    intro p h hb
    cases op with
    | append u d t =>
      have hinv := Append_idInv p u d t h
      have hsum : ((p.Append u d t).1).SeqNo + ((p.Append u d t).1).Segments.length
          = p.SeqNo + p.Segments.length + 1 := by
        rw [Append_SeqNo, Append_segments_length]
        omega
      have hb2 : removesOpenB ((p.Append u d t).1) rest = true := hb
      show [nextId p] ++ (runOps ((p.Append u d t).1) rest).2 = _
      rw [ih _ hinv hb2, hsum, nextId_of_idInv p h]
      show List.range' (p.SeqNo + p.Segments.length) 1 ++ _ = _
      rw [List.range'_append_1]
      rw [show countAppends (Op.append u d t :: rest) = countAppends rest + 1 from rfl]
    | remove =>
      have hb1 : (p.Segments.isEmpty || !p.Closed) = true ∧
          removesOpenB ((p.Remove).1) rest = true := by
        simpa [removesOpenB, Bool.and_eq_true] using hb
      have hop : p.Segments ≠ [] → p.Closed = false := by
        intro hne
        have he : p.Segments.isEmpty = false := by
          simpa [List.isEmpty_iff] using hne
        have := hb1.1
        rw [he] at this
        simpa using this
      have hri := Remove_idInv p h hop
      show [] ++ (runOps ((p.Remove).1) rest).2 = _
      rw [List.nil_append, ih _ hri.1 hb1.2, hri.2]
      rfl
    | slide u d t =>
      have hpre := slidePre_idInv p h
      have hinv := Append_idInv (slidePre p) u d t hpre.1
      have hsum : (((slidePre p).Append u d t).1).SeqNo
            + (((slidePre p).Append u d t).1).Segments.length
          = p.SeqNo + p.Segments.length + 1 := by
        rw [Append_SeqNo, Append_segments_length]
        omega
      have hb2 : removesOpenB (((slidePre p).Append u d t).1) rest = true := hb
      show [nextId (slidePre p)] ++ (runOps (((slidePre p).Append u d t).1) rest).2 = _
      rw [ih _ hinv hb2, hsum, nextId_of_idInv (slidePre p) hpre.1, hpre.2]
      show List.range' (p.SeqNo + p.Segments.length) 1 ++ _ = _
      rw [List.range'_append_1]
      rw [show countAppends (Op.slide u d t :: rest) = countAppends rest + 1 from rfl]
    | close =>
      show [] ++ (runOps p.Close rest).2 = _
      rw [List.nil_append, ih _ (Close_idInv p h) hb]
      rfl

lemma chain_append_ids (p : MediaPlaylist) (u : String) (d : ℚ) (t : String)
    (h : List.Chain' (fun a b => b = a + 1) (p.Segments.map (fun s => s.SeqId))) :
    List.Chain' (fun a b => b = a + 1)
      (((p.Append u d t).1).Segments.map (fun s => s.SeqId)) := by
  rw [Append_segments]
  simp only [List.map_append, List.map_cons, List.map_nil]
  rw [List.chain'_append]
  refine ⟨h, List.chain'_singleton _, ?_⟩
  intro x hx y hy
  rw [List.getLast?_map] at hx
  cases hl : p.Segments.getLast? with
  | none =>
    rw [hl] at hx
    cases hx
  | some s =>
    rw [hl] at hx
    have hxs : s.SeqId = x := by
      simpa using hx
    have hyn : nextId p = y := by
      simpa using hy
    have hni : nextId p = s.SeqId + 1 := by
      unfold nextId
      rw [hl]
    subst hxs
    subst hyn
    exact hni

lemma applyOp_chain (p : MediaPlaylist) (op : Op)
    (h : List.Chain' (fun a b => b = a + 1) (p.Segments.map (fun s => s.SeqId))) :
    List.Chain' (fun a b => b = a + 1)
      ((applyOp p op).Segments.map (fun s => s.SeqId)) := by
  cases op with
  | append u d t => exact chain_append_ids p u d t h
  | remove =>
    show List.Chain' _ (((p.Remove).1).Segments.map _)
    by_cases he : p.Segments.isEmpty
    · simpa [MediaPlaylist.Remove, he] using h
    · have h2 : ((p.Remove).1).Segments = p.Segments.tail := by
        simp [MediaPlaylist.Remove, he]
      rw [h2, List.map_tail]
      exact h.tail
  | slide u d t =>
    apply chain_append_ids
    unfold slidePre
    split
    · show List.Chain' _ (((p.Remove).1).Segments.map _)
      by_cases he : p.Segments.isEmpty
      · simpa [MediaPlaylist.Remove, he] using h
      · have h2 : ((p.Remove).1).Segments = p.Segments.tail := by
          simp [MediaPlaylist.Remove, he]
        rw [h2, List.map_tail]
        exact h.tail
    · exact h
  | close => exact h

lemma runOps_chain :
    ∀ (ops : List Op) (p : MediaPlaylist),
      List.Chain' (fun a b => b = a + 1) (p.Segments.map (fun s => s.SeqId)) →
      List.Chain' (fun a b => b = a + 1)
        (((runOps p ops).1).Segments.map (fun s => s.SeqId)) := by
  intro ops
  induction ops with
  | nil => intro p h; exact h
  | cons op rest ih =>
    intro p h
    exact ih (applyOp p op) (applyOp_chain p op h)

/-- Claim C2 (amended): starting from an empty playlist with media sequence
number s0, provided every remove() that drops a segment runs while the
playlist is open, the assigned segment ids over any run of operations are
exactly s0, s0+1, … in append order; and — with no proviso at all — the
retained segments of any run carry contiguous ids increasing by exactly 1.
(The original unrestricted statement fails when a closed playlist is emptied
by remove() and then appended to, see `c2_counterexample`.) -/
theorem c2_sequence_ids (s0 w : ℕ) (ops : List Op) :
    (removesOpenB { NewMediaPlaylist w with SeqNo := s0 } ops = true →
      (runOps { NewMediaPlaylist w with SeqNo := s0 } ops).2
        = List.range' s0 (countAppends ops)) ∧
    List.Chain' (fun a b => b = a + 1)
      (((runOps { NewMediaPlaylist w with SeqNo := s0 } ops).1).Segments.map
        (fun s => s.SeqId)) := by
  constructor
  · intro hb
    have hinv : idInv { NewMediaPlaylist w with SeqNo := s0 } := by
      unfold idInv
      rfl
    have := runOps_ids ops _ hinv hb
    simpa using this
  · exact runOps_chain ops _ (by constructor)

def c2WOps : List Op :=
  [Op.append "a.ts" 5 "", Op.append "b.ts" 4 "", Op.remove, Op.slide "c.ts" 6 ""]

/-- Witness for C2 at a concrete run: two appends, an open remove and a
slide assign ids 0, 1, 2. -/
theorem c2_witness :
    removesOpenB { NewMediaPlaylist 2 with SeqNo := 0 } c2WOps = true ∧
    (runOps { NewMediaPlaylist 2 with SeqNo := 0 } c2WOps).2
      = List.range' 0 (countAppends c2WOps) ∧
    List.Chain' (fun a b => b = a + 1)
      (((runOps { NewMediaPlaylist 2 with SeqNo := 0 } c2WOps).1).Segments.map
        (fun s => s.SeqId)) :=
  ⟨by decide, (c2_sequence_ids 0 2 c2WOps).1 (by decide), (c2_sequence_ids 0 2 c2WOps).2⟩

def c2CEOps : List Op :=
  [Op.append "a.ts" 5 "", Op.close, Op.remove, Op.append "b.ts" 5 ""]

/-- C2 counterexample: append, close, remove (which no longer bumps SeqNo),
then append again — the playlist was emptied while closed, so the second
append reuses id 0: the assigned ids are 0, 0, not firstId, firstId+1. -/
theorem c2_counterexample :
    (runOps (NewMediaPlaylist 3) c2CEOps).2 = [0, 0] ∧
    countAppends c2CEOps = 2 ∧
    (runOps (NewMediaPlaylist 3) c2CEOps).2
      ≠ List.range' (NewMediaPlaylist 3).SeqNo (countAppends c2CEOps) := by
  refine ⟨by decide, rfl, by decide⟩

/-! ### Key and Map continuation during encode (claim C6) -/

lemma renderKey_ne_empty (k : Key) : renderKey k ≠ "" := by
  intro hc
  have h2 : (renderKey k).length = 0 := by
    rw [hc]
    rfl
  unfold renderKey at h2
  simp only [String.length_append] at h2
  have h3 : ("#EXT-X-KEY:METHOD=" : String).length = 18 := rfl
  omega

lemma renderMap_ne_empty (m : Map) : renderMap m ≠ "" := by
  intro hc
  have h2 : (renderMap m).length = 0 := by
    rw [hc]
    rfl
  unfold renderMap at h2
  simp only [String.length_append] at h2
  have h3 : ("#EXT-X-MAP:URI=\"" : String).length = 16 := rfl
  omega

/-- Claim-side condition: the segment has a key differing by value from the
previous segment's key (vacuously when the previous segment had none). -/
def keyDiffers (prev cur : Option Key) : Prop :=
  ∃ k, cur = some k ∧ ∀ k0, prev = some k0 → k.Equal k0 = false

/-- Claim-side condition for maps. -/
def mapDiffers (prev cur : Option Map) : Prop :=
  ∃ m, cur = some m ∧ ∀ m0, prev = some m0 → m.Equal m0 = false

lemma keyTagStr_ne_iff (prev cur : Option Key) :
    keyTagStr prev cur ≠ "" ↔ keyDiffers prev cur := by
  cases cur with
  | none =>
    simp only [keyTagStr, keyDiffers]
    simp
  | some k =>
    cases prev with
    | none =>
      simp only [keyTagStr, keyDiffers]
      constructor
      · intro hne
        exact ⟨k, rfl, by intro k0 hc; cases hc⟩
      · intro hex
        exact renderKey_ne_empty k
    | some k0 =>
      by_cases he : k.Equal k0
      · simp only [keyTagStr, he, if_pos]
        constructor
        · intro hc
          exact absurd rfl hc
        · intro hex
          rcases hex with ⟨k2, hk2, hall⟩
          have hk2e : k2 = k := (Option.some.inj hk2).symm
          have := hall k0 rfl
          rw [hk2e] at this
          rw [he] at this
          cases this
      · simp only [keyTagStr, he, if_neg]
        constructor
        · intro hne
          refine ⟨k, rfl, ?_⟩
          intro k2 hk2
          have hk2e : k2 = k0 := (Option.some.inj hk2).symm
          rw [hk2e]
          exact Bool.not_eq_true _ ▸ (by simpa using he)
        · intro hex
          exact renderKey_ne_empty k

lemma mapTagStr_ne_iff (prev cur : Option Map) :
    mapTagStr prev cur ≠ "" ↔ mapDiffers prev cur := by
  cases cur with
  | none =>
    simp only [mapTagStr, mapDiffers]
    simp
  | some m =>
    cases prev with
    | none =>
      simp only [mapTagStr, mapDiffers]
      constructor
      · intro hne
        exact ⟨m, rfl, by intro m0 hc; cases hc⟩
      · intro hex
        exact renderMap_ne_empty m
    | some m0 =>
      by_cases he : m.Equal m0
      · simp only [mapTagStr, he, if_pos]
        constructor
        · intro hc
          exact absurd rfl hc
        · intro hex
          rcases hex with ⟨m2, hm2, hall⟩
          have hm2e : m2 = m := (Option.some.inj hm2).symm
          have := hall m0 rfl
          rw [hm2e] at this
          rw [he] at this
          cases this
      · simp only [mapTagStr, he, if_neg]
        constructor
        · intro hne
          refine ⟨m, rfl, ?_⟩
          intro m2 hm2
          have hm2e : m2 = m0 := (Option.some.inj hm2).symm
          rw [hm2e]
          exact Bool.not_eq_true _ ▸ (by simpa using he)
        · intro hex
          exact renderMap_ne_empty m

/-- The loop-carried lastKey after processing l starting from lk: the Key of
the last segment of l — whether or not a tag was emitted for it — or lk when
l is empty (src/writer.go 634). -/
def carriedKey (lk : Option Key) (l : List MediaSegment) : Option Key :=
  match l.getLast? with
  | some s => s.Key
  | none => lk

/-- The loop-carried lastMap (src/writer.go 654). -/
def carriedMap (lm : Option Map) (l : List MediaSegment) : Option Map :=
  match l.getLast? with
  | some s => s.Map
  | none => lm

lemma carriedKey_cons (lk : Option Key) (s : MediaSegment) (rest : List MediaSegment) :
    carriedKey lk (s :: rest) = carriedKey s.Key rest := by
  cases rest with
  | nil => rfl
  | cons b l2 =>
    unfold carriedKey
    rw [List.getLast?_cons_cons]
    cases hgl : (b :: l2).getLast? with
    | none => exact (List.cons_ne_nil b l2 (List.getLast?_eq_none_iff.1 hgl)).elim
    | some x => rfl

lemma carriedMap_cons (lm : Option Map) (s : MediaSegment) (rest : List MediaSegment) :
    carriedMap lm (s :: rest) = carriedMap s.Map rest := by
  cases rest with
  | nil => rfl
  | cons b l2 =>
    unfold carriedMap
    rw [List.getLast?_cons_cons]
    cases hgl : (b :: l2).getLast? with
    | none => exact (List.cons_ne_nil b l2 (List.getLast?_eq_none_iff.1 hgl)).elim
    | some x => rfl

lemma segBlocksNC_append (p : MediaPlaylist) :
    ∀ (l1 l2 : List MediaSegment) (lk : Option Key) (lm : Option Map),
      segBlocksNC p lk lm (l1 ++ l2)
        = segBlocksNC p lk lm l1
          ++ segBlocksNC p (carriedKey lk l1) (carriedMap lm l1) l2 := by
  intro l1
  induction l1 with
  | nil => intro l2 lk lm; rfl
  | cons s rest ih =>
    intro l2 lk lm
    simp only [List.cons_append, segBlocksNC, List.append_eq]
    rw [ih l2 s.Key s.Map, carriedKey_cons, carriedMap_cons]

/-- Claim C6: within one encode call the loop-carried key/map state starts at
"none seen" and after each segment becomes that segment's Key/Map, so the
block emitted for a segment b preceded by the segments l1 is computed against
exactly the previous segment's Key and Map (none at the head); its key (resp.
map) tag component is non-empty precisely when b has a Key (resp. Map) that
is new or differs by value from the previous segment's, hence adjacent
segments with value-equal Keys yield at most one tag and differing Keys each
yield their own. -/
theorem c6_key_map_continuation (p : MediaPlaylist) (l1 l2 : List MediaSegment)
    (b : MediaSegment) (h : p.Segments = l1 ++ b :: l2) :
    segBlocksNC p none none p.Segments
      = segBlocksNC p none none l1
        ++ encodeSegBlockNC p (carriedKey none l1) (carriedMap none l1) b
          :: segBlocksNC p b.Key b.Map l2 ∧
    (keyTagStr (carriedKey none l1) b.Key ≠ "" ↔ keyDiffers (carriedKey none l1) b.Key) ∧
    (mapTagStr (carriedMap none l1) b.Map ≠ "" ↔ mapDiffers (carriedMap none l1) b.Map) ∧
    p.Encode = mediaHeader p ++ String.join (segBlocksNC p none none p.Segments) ++
      (if p.Closed then "#EXT-X-ENDLIST\n" else "") := by
  refine ⟨?_, keyTagStr_ne_iff _ _, mapTagStr_ne_iff _ _, Encode_eq_NC p⟩
  rw [h, segBlocksNC_append]
  rfl

def c6Key : Key := ⟨"AES-128", "k.bin", "", "", ""⟩

def c6SegA : MediaSegment := { newSegment "a.ts" 5 "" with Key := some c6Key }

def c6SegB : MediaSegment := { newSegment "b.ts" 5 "" with Key := some c6Key }

def c6P : MediaPlaylist := { NewMediaPlaylist 3 with Segments := [c6SegA, c6SegB] }

/-- Witness for C6: two adjacent segments sharing one key by value; the
second block's key-tag component is empty (no second tag emitted). -/
theorem c6_witness :
    (segBlocksNC c6P none none c6P.Segments
      = segBlocksNC c6P none none [c6SegA]
        ++ encodeSegBlockNC c6P (carriedKey none [c6SegA]) (carriedMap none [c6SegA]) c6SegB
          :: segBlocksNC c6P c6SegB.Key c6SegB.Map [] ∧
    (keyTagStr (carriedKey none [c6SegA]) c6SegB.Key ≠ ""
      ↔ keyDiffers (carriedKey none [c6SegA]) c6SegB.Key) ∧
    (mapTagStr (carriedMap none [c6SegA]) c6SegB.Map ≠ ""
      ↔ mapDiffers (carriedMap none [c6SegA]) c6SegB.Map) ∧
    c6P.Encode = mediaHeader c6P ++ String.join (segBlocksNC c6P none none c6P.Segments) ++
      (if c6P.Closed then "#EXT-X-ENDLIST\n" else "")) ∧
    keyTagStr (carriedKey none [c6SegA]) c6SegB.Key = "" ∧
    keyTagStr none c6SegA.Key = renderKey c6Key :=
  ⟨c6_key_map_continuation c6P [c6SegA] [] c6SegB rfl, by decide, by decide⟩

/-! ### Alternative-rendition dedup in the master encode (claim C7) -/

/-- Specification-side first-seen dedup by the hyphen-joined key (the amended
claim): keep each alternatives first occurrence per `altKey` string. -/
def dedupByAltKey : List String → List Alternative → List Alternative
  | _, [] => []
  | seen, a :: rest =>
    if altKey a ∈ seen then dedupByAltKey seen rest
    else a :: dedupByAltKey (altKey a :: seen) rest

/-- The altsWritten set after one pass. -/
def seenAfter : List String → List Alternative → List String
  | seen, [] => seen
  | seen, a :: rest =>
    if altKey a ∈ seen then seenAfter seen rest
    else seenAfter (altKey a :: seen) rest

lemma altsStep_eq :
    ∀ (l : List Alternative) (seen : List String),
      altsStep seen l = (dedupByAltKey seen l, seenAfter seen l) := by
  intro l
  induction l with
  | nil => intro seen; rfl
  | cons a rest ih =>
    intro seen
    by_cases h : altKey a ∈ seen
    · simp only [altsStep, dedupByAltKey, seenAfter, if_pos h]
      exact ih seen
    · simp only [altsStep, dedupByAltKey, seenAfter, if_neg h]
      rw [ih (altKey a :: seen)]

lemma dedupByAltKey_append :
    ∀ (l1 l2 : List Alternative) (seen : List String),
      dedupByAltKey seen (l1 ++ l2)
        = dedupByAltKey seen l1 ++ dedupByAltKey (seenAfter seen l1) l2 := by
  intro l1
  induction l1 with
  | nil => intro l2 seen; rfl
  | cons a rest ih =>
    intro l2 seen
    by_cases h : altKey a ∈ seen
    · simp only [List.cons_append, dedupByAltKey, seenAfter, if_pos h, List.append_eq]
      exact ih l2 seen
    · simp only [List.cons_append, dedupByAltKey, seenAfter, if_neg h, List.append_eq]
      rw [ih l2 (altKey a :: seen)]

lemma emitLoop_eq :
    ∀ (vs : List Variant) (seen : List String),
      emitLoop seen vs = dedupByAltKey seen (vs.flatMap (fun v => v.Alternatives)) := by
  intro vs
  induction vs with
  | nil => intro seen; rfl
  | cons v rest ih =>
    intro seen
    show (altsStep seen v.Alternatives).1
        ++ emitLoop (altsStep seen v.Alternatives).2 rest = _
    rw [altsStep_eq, List.flatMap_cons, dedupByAltKey_append]
    show dedupByAltKey seen v.Alternatives ++ emitLoop (seenAfter seen v.Alternatives) rest
        = _
    rw [ih (seenAfter seen v.Alternatives)]

lemma dedupByAltKey_nodup :
    ∀ (l : List Alternative) (seen : List String),
      ((dedupByAltKey seen l).map altKey).Nodup ∧
      ∀ k ∈ (dedupByAltKey seen l).map altKey, k ∉ seen := by
  intro l
  induction l with
  | nil => intro seen; exact ⟨List.nodup_nil, by intro k hk; cases hk⟩
  | cons a rest ih =>
    intro seen
    by_cases h : altKey a ∈ seen
    · simp only [dedupByAltKey, if_pos h]
      exact ih seen
    · simp only [dedupByAltKey, if_neg h, List.map_cons]
      have ih2 := ih (altKey a :: seen)
      constructor
      · rw [List.nodup_cons]
        refine ⟨?_, ih2.1⟩
        intro hc
        have := ih2.2 (altKey a) hc
        exact this (List.mem_cons_self _ _)
      · intro k hk
        rcases List.mem_cons.1 hk with hk1 | hk1
        · rw [hk1]
          exact h
        · intro hc
          exact ih2.2 k hk1 (List.mem_cons_of_mem _ hc)

lemma dedupByAltKey_covers :
    ∀ (l : List Alternative) (seen : List String) (a : Alternative), a ∈ l →
      altKey a ∈ seen ∨ altKey a ∈ (dedupByAltKey seen l).map altKey := by
  intro l
  induction l with
  | nil => intro seen a ha; cases ha
  | cons b rest ih =>
    intro seen a ha
    rcases List.mem_cons.1 ha with hab | har
    · by_cases h : altKey b ∈ seen
      · rw [hab]
        exact Or.inl h
      · simp only [dedupByAltKey, if_neg h, List.map_cons]
        rw [hab]
        exact Or.inr (List.mem_cons_self _ _)
    · by_cases h : altKey b ∈ seen
      · simp only [dedupByAltKey, if_pos h]
        exact ih seen a har
      · simp only [dedupByAltKey, if_neg h, List.map_cons]
        rcases ih (altKey b :: seen) a har with hc | hc
        · rcases List.mem_cons.1 hc with hc1 | hc1
          · exact Or.inr (by rw [hc1]; exact List.mem_cons_self _ _)
          · exact Or.inl hc1
        · exact Or.inr (List.mem_cons_of_mem _ hc)

/-- Claim C7 (amended): across a whole master-playlist encode the emitted
alternatives are exactly the first occurrence of each distinct hyphen-joined
key string (type-groupid-name-language, as fmt.Sprintf builds it) over all
variants alternatives in first-seen order: the emitted key strings are
duplicate-free and every alternatives key string is represented. Dedup is by
that joined string, not by the 4-tuple: renditions whose fields differ but
whose joined strings collide are emitted once (see `c7_counterexample`). -/
theorem c7_alt_dedup (p : MasterPlaylist) :
    emittedAlts p = dedupByAltKey [] (p.Variants.flatMap (fun v => v.Alternatives)) ∧
    ((emittedAlts p).map altKey).Nodup ∧
    (∀ a ∈ p.Variants.flatMap (fun v => v.Alternatives),
      altKey a ∈ (emittedAlts p).map altKey) ∧
    p.Encode = masterHeader p ++ encodeVariantsLoop p [] p.Variants := by
  refine ⟨emitLoop_eq p.Variants [], ?_, ?_, rfl⟩
  · show ((emitLoop [] p.Variants).map altKey).Nodup
    rw [emitLoop_eq]
    exact (dedupByAltKey_nodup _ []).1
  · intro a ha
    show altKey a ∈ (emitLoop [] p.Variants).map altKey
    rw [emitLoop_eq]
    rcases dedupByAltKey_covers _ [] a ha with hc | hc
    · cases hc
    · exact hc

def c7Alt1 : Alternative :=
  { AltType := "X", GroupId := "a-b", Name := "", Language := "",
    Default := false, Autoselect := "", Forced := "", InstreamID := "",
    Characteristics := "", Channels := "", Subtitles := "", URI := "" }

def c7Alt2 : Alternative := { c7Alt1 with AltType := "X-a", GroupId := "b" }

def c7Variant : Variant :=
  { URI := "v.m3u8", Chunklist := none, ProgramId := 0, Bandwidth := 100,
    AverageBandwidth := 0, Codecs := "", Resolution := "", Audio := "",
    Video := "", Captions := "", Subtitles := "", Name := "", Iframe := false,
    FrameRate := 0, VideoRange := "", HDCPLevel := "",
    Alternatives := [c7Alt1, c7Alt2] }

def c7Master : MasterPlaylist :=
  { Variants := [c7Variant], Args := "", Custom := [],
    independentSegments := false, ver := 3 }

/-- C7 counterexample: two renditions differing in type and group id collide
on the hyphen-joined dedup key, so only the first is emitted: "exactly one
tag per distinct (type, group id, name, language)" and "renditions differing
in any of the four fields are each emitted" are false at this input. -/
theorem c7_counterexample :
    emittedAlts c7Master = [c7Alt1] ∧
    (c7Alt1.AltType, c7Alt1.GroupId, c7Alt1.Name, c7Alt1.Language)
      ≠ (c7Alt2.AltType, c7Alt2.GroupId, c7Alt2.Name, c7Alt2.Language) ∧
    altKey c7Alt1 = altKey c7Alt2 := by
  refine ⟨by decide, by decide, by decide⟩

/-! ### Encode is not deterministic over Go map iteration (claim C8) -/

def c8TagA : CustomTag := ⟨"X-A", some "#X-A:1"⟩

def c8TagB : CustomTag := ⟨"X-B", some "#X-B:2"⟩

def c8P1 : MediaPlaylist := { NewMediaPlaylist 3 with Custom := [c8TagA, c8TagB] }

def c8P2 : MediaPlaylist := { NewMediaPlaylist 3 with Custom := [c8TagB, c8TagA] }

/-- Claim C8 (code bug): the two playlists hold the same custom-tag map —
their iteration-order lists are permutations of each other and every other
field agrees — yet the encoded outputs differ byte-wise. Go iterates
`p.Custom` (a map) in unspecified, varying order (src/writer.go 396), so two
Encode calls on the same unchanged model state may produce different bytes
whenever two custom tags (or two daterange X- attributes) are registered. -/
theorem c8_nondeterminism :
    c8P1.Custom.Perm c8P2.Custom ∧
    c8P1 = { c8P2 with Custom := c8P1.Custom } ∧
    c8P1.Encode ≠ c8P2.Encode := by
  refine ⟨by decide, rfl, by decide⟩

def c7WAlt : Alternative :=
  { c7Alt1 with AltType := "AUDIO", GroupId := "aud", Name := "en", Language := "en" }

def c7WVar1 : Variant := { c7Variant with URI := "v1.m3u8", Alternatives := [c7WAlt] }

def c7WVar2 : Variant := { c7Variant with URI := "v2.m3u8", Alternatives := [c7WAlt] }

def c7WMaster : MasterPlaylist :=
  { Variants := [c7WVar1, c7WVar2], Args := "", Custom := [],
    independentSegments := false, ver := 3 }

/-- Witness for C7: two variants sharing one alternative rendition — it is
emitted exactly once, its key is covered, and the emitted keys are
duplicate-free. -/
theorem c7_witness :
    emittedAlts c7WMaster
      = dedupByAltKey [] (c7WMaster.Variants.flatMap (fun v => v.Alternatives)) ∧
    ((emittedAlts c7WMaster).map altKey).Nodup ∧
    altKey c7WAlt ∈ (emittedAlts c7WMaster).map altKey ∧
    emittedAlts c7WMaster = [c7WAlt] :=
  ⟨(c7_alt_dedup c7WMaster).1, (c7_alt_dedup c7WMaster).2.1,
   (c7_alt_dedup c7WMaster).2.2.1 c7WAlt (by decide), by decide⟩

end M3U8
